import Mathlib

/-!
# Verification of the file-reader / page-creation tool server

A shallow embedding of `src/server.py` (the tool handlers) and
`examples/test_demo.py` (the mock dispatcher), together with proofs of the
specification claims about them.

Conventions of the embedding:
* Python exceptions become an explicit `PyError` sum carried in `Except`.
* The filesystem is an explicit `FS` value mapping paths to nodes.
* Machine-level I/O (the remote page service) is an oracle passed in as a
  `Remote` structure; every operation additionally returns the list of
  network calls it attempted, so "performs no network I/O" is statable.
* Python `str` is Lean `String` (a sequence of unicode scalar values);
  `len` of a `str` is `String.length`, on-disk UTF-8 byte size is
  `String.utf8ByteSize`.
* JSON values are restricted to integer numerals (no floats); the Python
  `json` module's float handling is outside the modelled fragment.
-/

set_option maxHeartbeats 1000000

namespace DemoMcp

/-- Model of the Python exception classes raised by the server code.
`fileNotFound` is `FileNotFoundError`, `valueError` is `ValueError`,
`isADirectoryError` is the `OSError` subclass raised when `open` is given a
directory, `runtimeError` is `RuntimeError`, `pandasError` covers the
exceptions `pandas.read_csv` raises, `remoteError` the notion-client API
errors. -/
inductive PyError where
  | fileNotFound (msg : String)
  | valueError (msg : String)
  | isADirectoryError (msg : String)
  | runtimeError (msg : String)
  | pandasError (msg : String)
  | remoteError (msg : String)
deriving DecidableEq, Repr

/-- JSON values as produced by Python's `json.loads`, with numbers
restricted to integers (floats are outside the modelled fragment).
Objects are insertion-ordered key/value lists, mirroring Python dicts. -/
inductive Json where
  | null
  | bool (b : Bool)
  | num (n : Int)
  | str (s : String)
  | arr (elems : List Json)
  | obj (fields : List (String × Json))
deriving Repr

/-- Decimal digit character for `d < 10`. -/
def digitChar (d : Nat) : Char := Char.ofNat (48 + d)

/-- Fuel-driven decimal rendering of a natural number, most significant
digit first; `fuel > n` suffices. -/
def natReprAux : Nat → Nat → List Char
  | 0, _ => []
  | fuel + 1, n =>
    if n < 10 then [digitChar n]
    else natReprAux fuel (n / 10) ++ [digitChar (n % 10)]

/-- Decimal rendering of a natural number (Python `str(int)` for `n ≥ 0`). -/
def natRepr (n : Nat) : String := String.mk (natReprAux (n + 1) n)

/-- Decimal rendering of an integer (Python `str(int)` / `repr(int)`). -/
def intRepr (n : Int) : String :=
  if n < 0 then "-" ++ natRepr n.natAbs else natRepr n.toNat

/-- Lower-case hexadecimal digit character for `d < 16`. -/
def hexDigit (d : Nat) : Char :=
  if d < 10 then Char.ofNat (48 + d) else Char.ofNat (87 + d)

/-- The four hex digits of `n < 0x10000`, most significant first. -/
def hex4Digits (n : Nat) : List Char :=
  [hexDigit (n / 4096 % 16), hexDigit (n / 256 % 16),
   hexDigit (n / 16 % 16), hexDigit (n % 16)]

/-- A `\uXXXX` escape for `n < 0x10000`. -/
def uEscape (n : Nat) : List Char := '\\' :: 'u' :: hex4Digits n

/-- Escape of a single character in Python's `json.dumps` with the default
`ensure_ascii=True`: the named escapes, printable ASCII verbatim, and
`\uXXXX` (with a surrogate pair above `0xFFFF`) for everything else. -/
def escapeChar (c : Char) : List Char :=
  if c = '"' then ['\\', '"']
  else if c = '\\' then ['\\', '\\']
  else if c = '\n' then ['\\', 'n']
  else if c = '\r' then ['\\', 'r']
  else if c = '\t' then ['\\', 't']
  else if c.toNat = 8 then ['\\', 'b']
  else if c.toNat = 12 then ['\\', 'f']
  else if 0x20 ≤ c.toNat ∧ c.toNat ≤ 0x7e then [c]
  else if c.toNat < 0x10000 then uEscape c.toNat
  else uEscape (0xD800 + (c.toNat - 0x10000) / 0x400) ++
       uEscape (0xDC00 + (c.toNat - 0x10000) % 0x400)

/-- Escaped character stream of a string body. -/
def escapeChars (cs : List Char) : List Char := cs.flatMap escapeChar

/-- Python `json.dumps` rendering of a string, quotes included. -/
def encodeStringPy (s : String) : String :=
  "\"" ++ String.mk (escapeChars s.data) ++ "\""

/-- `2 * lvl` spaces: the indentation prefix `json.dumps(…, indent=2)` puts
before an element nested at depth `lvl`. -/
def ind (lvl : Nat) : String := String.mk (List.replicate (2 * lvl) ' ')

mutual

/-- Python `json.dumps(v, indent=2)` at nesting level `lvl`: atoms render
inline, non-empty containers put every item on its own indented line, and
empty containers render as `[]` / `\x7b\x7d`. -/
def dumpVal : Json → Nat → String
  | .null, _ => "null"
  | .bool true, _ => "true"
  | .bool false, _ => "false"
  | .num n, _ => intRepr n
  | .str s, _ => encodeStringPy s
  | .arr [], _ => "[]"
  | .arr (x :: xs), lvl =>
    "[\n" ++ dumpArrItems (x :: xs) (lvl + 1) ++ "\n" ++ ind lvl ++ "]"
  | .obj [], _ => "\x7b\x7d"
  | .obj (f :: fs), lvl =>
    "\x7b\n" ++ dumpObjItems (f :: fs) (lvl + 1) ++ "\n" ++ ind lvl ++ "\x7d"

/-- The comma-and-newline separated items of a non-empty array. -/
def dumpArrItems : List Json → Nat → String
  | [], _ => ""
  | [x], lvl => ind lvl ++ dumpVal x lvl
  | x :: y :: xs, lvl =>
    ind lvl ++ dumpVal x lvl ++ ",\n" ++ dumpArrItems (y :: xs) lvl

/-- The comma-and-newline separated `"key": value` items of a non-empty
object. -/
def dumpObjItems : List (String × Json) → Nat → String
  | [], _ => ""
  | [(k, v)], lvl => ind lvl ++ encodeStringPy k ++ ": " ++ dumpVal v lvl
  | (k, v) :: f :: fs, lvl =>
    ind lvl ++ encodeStringPy k ++ ": " ++ dumpVal v lvl ++ ",\n" ++
      dumpObjItems (f :: fs) lvl

end

/-- `json.dumps(v, indent=2)` as called by `create_notion_page_from_file`. -/
def jsonDumps (v : Json) : String := dumpVal v 0

/-! ## The JSON parser (`json.loads`)

A recursive-descent parser over the character stream, modelling Python's
`json.loads` on the integer-numeral fragment.  Recursion is fuel-driven so
that every definition is executable and reduces by `rfl`; `jsonLoads`
supplies `length + 1` fuel, which is always sufficient.  Divergences from
CPython confined to unrepresentable or out-of-fragment inputs: lone
surrogate escapes (not representable in Lean strings) and float literals
are rejected with an error instead of being decoded. -/

/-- The whitespace characters Python's `json` skips between tokens. -/
def isJsonWs (c : Char) : Bool := c = ' ' || c = '\t' || c = '\n' || c = '\r'

/-- Drop leading JSON whitespace. -/
def skipWs : List Char → List Char
  | [] => []
  | c :: cs => if isJsonWs c then skipWs cs else c :: cs

/-- Value of one hexadecimal digit character. -/
def hexVal? (c : Char) : Option Nat :=
  if '0' ≤ c ∧ c ≤ '9' then some (c.toNat - 48)
  else if 'a' ≤ c ∧ c ≤ 'f' then some (c.toNat - 87)
  else if 'A' ≤ c ∧ c ≤ 'F' then some (c.toNat - 55)
  else none

/-- Read four hex digits into a number below `0x10000`. -/
def readHex4 : List Char → Option (Nat × List Char)
  | a :: b :: c :: d :: rest =>
    match hexVal? a, hexVal? b, hexVal? c, hexVal? d with
    | some x, some y, some z, some w => some ((((x * 16) + y) * 16 + z) * 16 + w, rest)
    | _, _, _, _ => none
  | _ => none

/-- Parse a string body (opening quote already consumed) up to and past the
closing quote, decoding escapes; surrogate pairs in `\uXXXX` escapes are
combined as CPython does, lone surrogates are rejected (see module note). -/
def parseStringBody : Nat → List Char → Except String (List Char × List Char)
  | 0, _ => .error "Unterminated string"
  | fuel + 1, cs =>
    match cs with
    | [] => .error "Unterminated string"
    | c :: rest =>
      if c = '"' then .ok ([], rest)
      else if c = '\\' then
        match rest with
        | [] => .error "Unterminated string"
        | e :: rest' =>
          if e = '"' then
            (parseStringBody fuel rest').map (fun p => ('"' :: p.1, p.2))
          else if e = '\\' then
            (parseStringBody fuel rest').map (fun p => ('\\' :: p.1, p.2))
          else if e = '/' then
            (parseStringBody fuel rest').map (fun p => ('/' :: p.1, p.2))
          else if e = 'n' then
            (parseStringBody fuel rest').map (fun p => ('\n' :: p.1, p.2))
          else if e = 'r' then
            (parseStringBody fuel rest').map (fun p => ('\r' :: p.1, p.2))
          else if e = 't' then
            (parseStringBody fuel rest').map (fun p => ('\t' :: p.1, p.2))
          else if e = 'b' then
            (parseStringBody fuel rest').map (fun p => (Char.ofNat 8 :: p.1, p.2))
          else if e = 'f' then
            (parseStringBody fuel rest').map (fun p => (Char.ofNat 12 :: p.1, p.2))
          else if e = 'u' then
            match readHex4 rest' with
            | none => .error "Invalid \\uXXXX escape"
            | some (n, r1) =>
              if 0xD800 ≤ n ∧ n ≤ 0xDBFF then
                match r1 with
                | '\\' :: 'u' :: r2 =>
                  match readHex4 r2 with
                  | none => .error "Invalid \\uXXXX escape"
                  | some (m, r3) =>
                    if 0xDC00 ≤ m ∧ m ≤ 0xDFFF then
                      (parseStringBody fuel r3).map (fun p =>
                        (Char.ofNat (0x10000 + (n - 0xD800) * 0x400 + (m - 0xDC00)) :: p.1, p.2))
                    else .error "Unpaired surrogate escape"
                | _ => .error "Unpaired surrogate escape"
              else if 0xDC00 ≤ n ∧ n ≤ 0xDFFF then .error "Unpaired surrogate escape"
              else (parseStringBody fuel r1).map (fun p => (Char.ofNat n :: p.1, p.2))
          else .error ("Invalid \\escape: " ++ String.mk [e])
      else if c.toNat < 0x20 then .error "Invalid control character"
      else (parseStringBody fuel rest).map (fun p => (c :: p.1, p.2))

/-- Parse a whole JSON string literal; the input begins at the opening
quote's successor. -/
def parseJString (cs : List Char) : Except String (String × List Char) :=
  match parseStringBody (cs.length + 1) cs with
  | .ok (body, rest) => .ok (String.mk body, rest)
  | .error e => .error e

/-- Maximal leading digit run. -/
def takeDigits : List Char → List Char × List Char
  | [] => ([], [])
  | c :: cs =>
    if c.isDigit then
      let p := takeDigits cs
      (c :: p.1, p.2)
    else ([], c :: cs)

/-- Numeric value of a digit run (most significant digit first). -/
def digitsToNat (ds : List Char) : Nat :=
  ds.foldl (fun a c => a * 10 + (c.toNat - 48)) 0

/-- Parse the digit run of a numeral whose optional sign has already been
consumed (no leading zeros); a following `.`, `e` or `E` would start a
float literal, outside the modelled fragment, and is rejected. -/
def parseNumCore (neg : Bool) (cs : List Char) :
    Except String (Json × List Char) :=
  match takeDigits cs with
  | ([], _) => .error "Expecting value"
  | (d :: ds, rest) =>
    if d = '0' ∧ ds ≠ [] then .error "Expecting delimiter"
    else
      match rest with
      | '.' :: _ => .error "Float literals outside modelled fragment"
      | 'e' :: _ => .error "Float literals outside modelled fragment"
      | 'E' :: _ => .error "Float literals outside modelled fragment"
      | _ =>
        let v : Int := digitsToNat (d :: ds)
        .ok (.num (if neg then -v else v), rest)

/-- Parse an integer numeral (optional minus sign, then digits). -/
def parseNum (cs : List Char) : Except String (Json × List Char) :=
  match cs with
  | '-' :: cs' => parseNumCore true cs'
  | cs' => parseNumCore false cs'

/-- Insert into an insertion-ordered dict as Python's `dict` does: replace
the value at an existing key in place, append a new key at the end. -/
def updOrApp (fs : List (String × Json)) (k : String) (v : Json) :
    List (String × Json) :=
  match fs with
  | [] => [(k, v)]
  | (k', v') :: rest =>
    if k' = k then (k', v) :: rest else (k', v') :: updOrApp rest k v

/-- Build a Python dict from a parsed key/value sequence (later duplicate
keys overwrite earlier values in place). -/
def buildDict (pairs : List (String × Json)) : List (String × Json) :=
  pairs.foldl (fun acc kv => updOrApp acc kv.1 kv.2) []

mutual

/-- Parse one JSON value after skipping leading whitespace.  `fuel` bounds
the recursion depth; `jsonLoads` supplies enough for any input. -/
def parseVal : Nat → List Char → Except String (Json × List Char)
  | 0, _ => .error "Recursion limit exceeded"
  | fuel + 1, cs =>
    match skipWs cs with
    | [] => .error "Expecting value"
    | c :: rest =>
      if c = 'n' then
        match rest with
        | 'u' :: 'l' :: 'l' :: r => .ok (.null, r)
        | _ => .error "Expecting value"
      else if c = 't' then
        match rest with
        | 'r' :: 'u' :: 'e' :: r => .ok (.bool true, r)
        | _ => .error "Expecting value"
      else if c = 'f' then
        match rest with
        | 'a' :: 'l' :: 's' :: 'e' :: r => .ok (.bool false, r)
        | _ => .error "Expecting value"
      else if c = '"' then
        match parseJString rest with
        | .ok (s, r) => .ok (.str s, r)
        | .error e => .error e
      else if c = '[' then
        match skipWs rest with
        | ']' :: r => .ok (.arr [], r)
        | other =>
          match parseArrItems fuel other with
          | .ok (vs, r) => .ok (.arr vs, r)
          | .error e => .error e
      else if c = '\x7b' then
        match skipWs rest with
        | '\x7d' :: r => .ok (.obj [], r)
        | other =>
          match parseObjItems fuel other with
          | .ok (pairs, r) => .ok (.obj (buildDict pairs), r)
          | .error e => .error e
      else if c = '-' ∨ c.isDigit then parseNum (c :: rest)
      else .error "Expecting value"

/-- Parse the elements of a non-empty array, after the opening bracket
(and any whitespace); consumes the closing bracket. -/
def parseArrItems : Nat → List Char → Except String (List Json × List Char)
  | 0, _ => .error "Recursion limit exceeded"
  | fuel + 1, cs =>
    match parseVal fuel cs with
    | .error e => .error e
    | .ok (v, r) =>
      match skipWs r with
      | ',' :: r2 =>
        match parseArrItems fuel r2 with
        | .ok (vs, r3) => .ok (v :: vs, r3)
        | .error e => .error e
      | ']' :: r2 => .ok ([v], r2)
      | _ => .error "Expecting delimiter"

/-- Parse the `"key": value` members of a non-empty object, after the
opening brace (and any whitespace); consumes the closing brace. -/
def parseObjItems : Nat → List Char → Except String (List (String × Json) × List Char)
  | 0, _ => .error "Recursion limit exceeded"
  | fuel + 1, cs =>
    match cs with
    | '"' :: r0 =>
      match parseJString r0 with
      | .error e => .error e
      | .ok (k, r1) =>
        match skipWs r1 with
        | ':' :: r2 =>
          match parseVal fuel r2 with
          | .error e => .error e
          | .ok (v, r3) =>
            match skipWs r3 with
            | ',' :: r4 =>
              match skipWs r4 with
              | '"' :: r5 =>
                match parseObjItems fuel ('"' :: r5) with
                | .ok (ps, r6) => .ok ((k, v) :: ps, r6)
                | .error e => .error e
              | _ => .error "Expecting property name enclosed in double quotes"
            | '\x7d' :: r4 => .ok ([(k, v)], r4)
            | _ => .error "Expecting delimiter"
        | _ => .error "Expecting colon delimiter"
    | _ => .error "Expecting property name enclosed in double quotes"

end

/-- Python `json.loads`: parse one value, then require only whitespace to
remain. -/
def jsonLoads (s : String) : Except String Json :=
  match parseVal (s.length + 1) s.data with
  | .error e => .error e
  | .ok (v, rest) =>
    match skipWs rest with
    | [] => .ok v
    | _ => .error "Extra data"

mutual

/-- A fuel measure for JSON values: `parseVal` with at least `jsize v`
fuel can re-parse the dump of `v`. -/
def jsize : Json → Nat
  | .null => 1
  | .bool _ => 1
  | .num _ => 1
  | .str _ => 1
  | .arr xs => 2 + jsizeList xs
  | .obj fs => 2 + jsizeFields fs

/-- Sum of `jsize` over array elements. -/
def jsizeList : List Json → Nat
  | [] => 0
  | x :: xs => jsize x + jsizeList xs

/-- Sum of `jsize` over object field values. -/
def jsizeFields : List (String × Json) → Nat
  | [] => 0
  | f :: fs => jsize f.2 + jsizeFields fs

end

/-- No two fields of an object share a key. -/
def keysNodup : List (String × Json) → Bool
  | [] => true
  | f :: fs => !(fs.any (fun g => g.1 = f.1)) && keysNodup fs

mutual

/-- Every object anywhere in the value has duplicate-free keys: the
invariant of values produced by `jsonLoads` (Python dicts). -/
def jUniq : Json → Bool
  | .null => true
  | .bool _ => true
  | .num _ => true
  | .str _ => true
  | .arr xs => jUniqList xs
  | .obj fs => keysNodup fs && jUniqFields fs

/-- `jUniq` on every array element. -/
def jUniqList : List Json → Bool
  | [] => true
  | x :: xs => jUniq x && jUniqList xs

/-- `jUniq` on every field value. -/
def jUniqFields : List (String × Json) → Bool
  | [] => true
  | f :: fs => jUniq f.2 && jUniqFields fs

end

/-- Streams that may legally follow a JSON numeral: the end of input, or
a delimiter character that cannot extend the numeral. -/
def NumSafe : List Char → Prop
  | [] => True
  | c :: _ => c.isDigit = false ∧ c ≠ '.' ∧ c ≠ 'e' ∧ c ≠ 'E'

/-- The character stream `json.dumps(…, indent=2)` emits after one array
element nested at `lvl + 1`: either the separator and the next element,
or the closing-bracket line, followed by `rest`. -/
def arrTail (xs : List Json) (lvl : Nat) (rest : List Char) : List Char :=
  match xs with
  | [] => '\n' :: ((ind lvl).data ++ ']' :: rest)
  | y :: ys =>
    ',' :: '\n' :: ((ind (lvl + 1)).data ++
      ((dumpVal y (lvl + 1)).data ++ arrTail ys lvl rest))

/-- The character stream emitted after one object member nested at
`lvl + 1`: either the separator and the next member, or the closing-brace
line, followed by `rest`. -/
def objTail (fs : List (String × Json)) (lvl : Nat) (rest : List Char) :
    List Char :=
  match fs with
  | [] => '\n' :: ((ind lvl).data ++ '\x7d' :: rest)
  | g :: gs =>
    ',' :: '\n' :: ((ind (lvl + 1)).data ++
      ((encodeStringPy g.1).data ++ ':' :: ' ' ::
        ((dumpVal g.2 (lvl + 1)).data ++ objTail gs lvl rest)))

/-! ## Filesystem model

Paths are strings; the filesystem maps each path to a node.  Directory
nodes carry their direct entries (name and node), which is what
`Path.iterdir` enumerates; files carry their decoded UTF-8 text, with the
on-disk byte length recovered as the text's UTF-8 byte size.  The model
covers ordinary paths without `.`/`..` components or trailing slashes. -/

/-- A filesystem node: a regular file holding UTF-8 text, or a directory
with its direct entries. -/
inductive FSNode where
  | file (text : String)
  | dir (entries : List (String × FSNode))

/-- The ambient filesystem: what `Path.exists`, `open`, `stat` and
`iterdir` consult. -/
structure FS where
  lookup : String → Option FSNode

/-- `item.is_file()` on a directory entry's node. -/
def FSNode.isFile : FSNode → Bool
  | .file _ => true
  | .dir _ => false

/-- `Path(p).exists()`. -/
def pathExists (fs : FS) (p : String) : Bool := (fs.lookup p).isSome

/-- `Path(p).is_file()`. -/
def isRegularFile (fs : FS) (p : String) : Bool :=
  match fs.lookup p with
  | some (.file _) => true
  | _ => false

/-- `Path(p).is_dir()`. -/
def isDirectory (fs : FS) (p : String) : Bool :=
  match fs.lookup p with
  | some (.dir _) => true
  | _ => false

/-- `open(p).read()`: the decoded text of a regular file; opening a
directory raises `IsADirectoryError`, a missing path `FileNotFoundError`. -/
def openRead (fs : FS) (p : String) : Except PyError String :=
  match fs.lookup p with
  | some (.file t) => .ok t
  | some (.dir _) => .error (.isADirectoryError ("Is a directory: " ++ p))
  | none => .error (.fileNotFound ("No such file or directory: " ++ p))

/-- `Path(p).stat().st_size`: the on-disk byte length (UTF-8 bytes of the
stored text). -/
def statSize (fs : FS) (p : String) : Nat :=
  match fs.lookup p with
  | some (.file t) => t.utf8ByteSize
  | _ => 0

/-- Split a character stream at every occurrence of `sep` (Python
`str.split(sep)` for a one-character separator). -/
def splitOnCharAux (sep : Char) : List Char → List Char → List (List Char)
  | [], acc => [acc.reverse]
  | c :: cs, acc =>
    if c = sep then acc.reverse :: splitOnCharAux sep cs []
    else splitOnCharAux sep cs (c :: acc)

/-- Split a string at every occurrence of the character `sep`. -/
def splitOnChar (sep : Char) (s : String) : List String :=
  (splitOnCharAux sep s.data []).map String.mk

/-- ASCII lower-casing (Python `str.lower` restricted to the ASCII
fragment the claims exercise). -/
def strLower (s : String) : String := String.mk (s.data.map Char.toLower)

/-- `Path(p).name`: the final path component. -/
def pathName (p : String) : String :=
  ((((splitOnChar '/' p)).filter (fun s => s ≠ "")).getLast?).getD ""

/-- `PurePath.suffix` of a final component: the part from the last dot,
when that dot is neither the first nor the last character of the name. -/
def nameSuffix (name : String) : String :=
  match splitOnChar '.' name with
  | [] => ""
  | [_] => ""
  | ["", _] => ""
  | parts =>
    match parts.getLast? with
    | some "" => ""
    | some ext => "." ++ ext
    | none => ""

/-- `Path(p).suffix`. -/
def pathSuffix (p : String) : String := nameSuffix (pathName p)

/-! ## The file-reader tools (`server.py`) -/

/-- The `FileContent` pydantic model, generic over the shape the `content`
union member takes for each reader. -/
structure FileContent (α : Type) where
  filename : String
  content_type : String
  content : α
  size : Nat
  encoding : String
deriving DecidableEq, Repr

/-- `read_text_file`: existence check, regular-file check, then the whole
decoded text; `size` is the character count of the loaded text. -/
def read_text_file (fs : FS) (file_path : String) :
    Except PyError (FileContent String) :=
  if ¬ pathExists fs file_path then
    .error (.fileNotFound ("File not found: " ++ file_path))
  else if ¬ isRegularFile fs file_path then
    .error (.valueError ("Path is not a file: " ++ file_path))
  else
    match openRead fs file_path with
    | .error e => .error e
    | .ok content =>
      .ok { filename := pathName file_path, content_type := "text",
            content := content, size := content.length, encoding := "utf-8" }

/-- `read_json_file`: existence check (but, unlike `read_text_file`, no
regular-file check), load the text, parse it as JSON wrapping a parse
failure's message in `ValueError("Invalid JSON format: …")`; `size` is the
character count of the raw text. -/
def read_json_file (fs : FS) (file_path : String) :
    Except PyError (FileContent Json) :=
  if ¬ pathExists fs file_path then
    .error (.fileNotFound ("File not found: " ++ file_path))
  else
    match openRead fs file_path with
    | .error e => .error e
    | .ok content_str =>
      match jsonLoads content_str with
      | .error e => .error (.valueError ("Invalid JSON format: " ++ e))
      | .ok content =>
        .ok { filename := pathName file_path, content_type := "json",
              content := content, size := content_str.length,
              encoding := "utf-8" }

/-! ## The delimited reader (`read_csv_file` via `pandas.read_csv`)

A cell value after pandas dtype inference: a column all of whose cells are
integer literals becomes an integer column, any other column keeps its
cells as strings.  The modelled fragment is rectangular tables of integer
and plain-string cells: float/NaN inference, quoting, and ragged rows are
outside it (ragged rows are conservatively rejected, as pandas rejects
over-long rows). -/

/-- A parsed cell after pandas dtype inference. -/
inductive CellVal where
  | intVal (n : Int)
  | strVal (s : String)
deriving DecidableEq, Repr

/-- Python `str()` of a cell value. -/
def pyStr : CellVal → String
  | .intVal n => intRepr n
  | .strVal s => s

/-- Is the cell an integer literal (optional minus sign, digits)? -/
def isIntLit (s : String) : Bool :=
  match s.data with
  | [] => false
  | '-' :: rest => rest ≠ [] && rest.all (fun c => c.isDigit)
  | cs => cs.all (fun c => c.isDigit)

/-- Integer value of an integer-literal cell. -/
def strToInt (s : String) : Int :=
  match s.data with
  | '-' :: rest => -(digitsToNat rest : Int)
  | cs => (digitsToNat cs : Int)

/-- Interpret one cell under its column's inferred dtype. -/
def parseCell (isIntCol : Bool) (s : String) : CellVal :=
  if isIntCol then .intVal (strToInt s) else .strVal s

/-- Per-column dtype inference over the data rows: a column is an integer
column iff every row's cell in it is an integer literal. -/
def inferIntFlags (ncols : Nat) (rows : List (List String)) : List Bool :=
  rows.foldr (fun r acc => List.zipWith (fun a b => a && b) (r.map isIntLit) acc)
    (List.replicate ncols true)

/-- One record of `DataFrame.to_dict('records')`: an insertion-ordered
mapping from header name to cell value. -/
abbrev Record := List (String × CellVal)

/-- The lines pandas tokenizes: split on newlines, skipping blank lines
(`skip_blank_lines=True`, which also absorbs a trailing newline). -/
def csvLines (text : String) : List String :=
  (splitOnChar '\n' text).filter (fun l => l ≠ "")

/-- `pandas.read_csv(…, delimiter, nrows).to_dict('records')` on the
modelled fragment: first line is the header, each further line (up to
`nrows`) one record; empty input, ragged rows and multi-character
delimiters are errors. -/
def pdReadCsv (text : String) (delimiter : String) (nrows : Option Nat) :
    Except String (List Record) :=
  match delimiter.data with
  | [d] =>
    match csvLines text with
    | [] => .error "No columns to parse from file"
    | headerLine :: allData =>
      let headers := splitOnChar d headerLine
      let dataLines := match nrows with
        | some k => allData.take k
        | none => allData
      let rows := dataLines.map (fun l => splitOnChar d l)
      if rows.all (fun r => r.length = headers.length) then
        let flags := inferIntFlags headers.length rows
        .ok (rows.map (fun r => headers.zip (List.zipWith parseCell flags r)))
      else .error "Error tokenizing data"
  | _ => .error "Delimiters outside the modelled fragment"

/-- `read_csv_file`: existence check (no regular-file check), parse via
pandas, and report `size` as the on-disk byte length from `stat`. -/
def read_csv_file (fs : FS) (file_path : String) (delimiter : String)
    (max_rows : Option Nat) : Except PyError (FileContent (List Record)) :=
  if ¬ pathExists fs file_path then
    .error (.fileNotFound ("File not found: " ++ file_path))
  else
    match openRead fs file_path with
    | .error e => .error e
    | .ok text =>
      match pdReadCsv text delimiter max_rows with
      | .error e => .error (.pandasError e)
      | .ok records =>
        .ok { filename := pathName file_path, content_type := "csv",
              content := records, size := statSize fs file_path,
              encoding := "utf-8" }

/-! ## Directory listing -/

/-- The dictionary `list_files_in_directory` returns. -/
structure DirListing where
  directory : String
  files : List String
  total_count : Nat
deriving DecidableEq, Repr

/-- Does the entry name's suffix case-insensitively match one of the given
extensions (`None` matches everything)? -/
def extMatches (exts : Option (List String)) (name : String) : Bool :=
  match exts with
  | none => true
  | some l => (l.map strLower).contains (strLower (nameSuffix name))

/-- `list_files_in_directory`: existence and directory checks, then the
direct entries that are regular files and pass the extension filter, as
full paths; subdirectory contents are never visited. -/
def list_files_in_directory (fs : FS) (directory_path : String)
    (file_extensions : Option (List String)) : Except PyError DirListing :=
  if ¬ pathExists fs directory_path then
    .error (.fileNotFound ("Directory not found: " ++ directory_path))
  else if ¬ isDirectory fs directory_path then
    .error (.valueError ("Path is not a directory: " ++ directory_path))
  else
    match fs.lookup directory_path with
    | some (.dir entries) =>
      let files := (entries.filter (fun e =>
          e.2.isFile && extMatches file_extensions e.1)).map
        (fun e => directory_path ++ "/" ++ e.1)
      .ok { directory := directory_path, files := files,
            total_count := files.length }
    | _ => .error (.valueError ("Path is not a directory: " ++ directory_path))

/-! ## The remote page client (Notion operations)

The module-level `notion_client` handle is `None` when `NOTION_API_KEY` is
absent; here it is an explicit `Option Remote` argument.  `Remote` is the
external service as an oracle: what `pages.create` and `search` would
answer.  Each operation returns its result together with the list of
network calls it attempted, so "performs no network I/O" is the trace
being empty. -/

/-- The fields `create_notion_page` reads off the service's response. -/
structure PageResp where
  id : String
  url : String
  created_time : String
deriving Repr

/-- The `page_data` payload handed to `notion_client.pages.create`:
parent database, property dict, and body blocks (empty list when the
`children` key is omitted). -/
structure PageData where
  parent_database_id : String
  properties : List (String × Json)
  children : List Json
deriving Repr

/-- One title segment of a database object, as read by
`get_notion_databases` (`plain_text` may be absent). -/
structure TitleSeg where
  plain_text : Option String
deriving Repr

/-- A database object in a search response; optional fields model keys the
code reads with `.get`. -/
structure DbObject where
  id : String
  title : Option (List TitleSeg)
  url : Option String
  created_time : Option String
  last_edited_time : Option String
deriving Repr

/-- The external service as an oracle: responses to the one page-creation
call and the one (fixed-filter) search the server issues. -/
structure Remote where
  pagesCreate : PageData → Except String PageResp
  searchDatabases : Except String (List DbObject)

/-- A network call attempted against the service. -/
inductive NetCall where
  | pagesCreate (pd : PageData)
  | search
deriving Repr

/-- The error `create_notion_page` and `get_notion_databases` raise when
the client handle is absent. -/
def unconfiguredError : PyError :=
  .runtimeError
    "Notion API key not configured. Please set NOTION_API_KEY environment variable."

/-- The `Name` title property built for the new page. -/
def titleProperty (title : String) : Json :=
  .obj [("title", .arr [.obj [("text", .obj [("content", .str title)])]])]

/-- The single paragraph block built from the optional content. -/
def paragraphBlock (content : String) : Json :=
  .obj [("object", .str "block"), ("type", .str "paragraph"),
        ("paragraph", .obj [("rich_text",
          .arr [.obj [("type", .str "text"),
                      ("text", .obj [("content", .str content)])]])])]

/-- Python `dict.update`: fold the update's pairs into the base dict. -/
def dictUpdate (base upd : List (String × Json)) : List (String × Json) :=
  upd.foldl (fun acc kv => updOrApp acc kv.1 kv.2) base

/-- The dictionary `create_notion_page` returns on success. -/
structure CreatePageResult where
  page_id : String
  url : String
  title : String
  created_time : String
  status : String
deriving Repr

/-- `create_notion_page`: fail fast with the configuration error when the
client handle is absent; otherwise build the title property (merging the
caller's non-empty property dict over it), a single paragraph body when
`content` is truthy, issue the create call, and map the response. -/
def create_notion_page (client : Option Remote) (database_id title : String)
    (content : Option String) (properties : Option (List (String × Json))) :
    Except PyError CreatePageResult × List NetCall :=
  match client with
  | none => (.error unconfiguredError, [])
  | some remote =>
    let base := [("Name", titleProperty title)]
    let page_properties := match properties with
      | some props => if props.isEmpty then base else dictUpdate base props
      | none => base
    let children := match content with
      | some c => if c = "" then [] else [paragraphBlock c]
      | none => []
    let page_data : PageData :=
      { parent_database_id := database_id, properties := page_properties,
        children := children }
    match remote.pagesCreate page_data with
    | .ok resp =>
      (.ok { page_id := resp.id, url := resp.url, title := title,
             created_time := resp.created_time, status := "success" },
       [.pagesCreate page_data])
    | .error e => (.error (.remoteError e), [.pagesCreate page_data])

/-- One entry of `get_notion_databases`' result. -/
structure DbSummary where
  id : String
  title : String
  url : String
  created_time : String
  last_edited_time : String
deriving Repr

/-- Display title extraction: first title segment's `plain_text`, with
`"Untitled"` when the title is absent, empty, or lacks `plain_text`. -/
def extractDbTitle (db : DbObject) : String :=
  match db.title with
  | some (seg :: _) => seg.plain_text.getD "Untitled"
  | _ => "Untitled"

/-- `get_notion_databases`: configuration check, then one search call,
mapping each result with defaulted optional fields. -/
def get_notion_databases (client : Option Remote) :
    Except PyError (List DbSummary) × List NetCall :=
  match client with
  | none => (.error unconfiguredError, [])
  | some remote =>
    match remote.searchDatabases with
    | .ok results =>
      (.ok (results.map (fun db =>
        { id := db.id, title := extractDbTitle db, url := db.url.getD "",
          created_time := db.created_time.getD "",
          last_edited_time := db.last_edited_time.getD "" })), [.search])
    | .error e => (.error (.remoteError e), [.search])

/-! ## `create_notion_page_from_file` -/

/-- Lookup of a cell by header name, Python `row.get(h, "")` followed by
`str(…)` (the default is the empty string). -/
def rowGet (row : Record) (h : String) : CellVal :=
  match List.find? (fun kv => kv.1 = h) row with
  | some kv => kv.2
  | none => .strVal ""

/-- One rendered data row: the cells under the given headers, pipe-joined. -/
def renderRow (headers : List String) (row : Record) : String :=
  String.intercalate " | " (headers.map (fun h => pyStr (rowGet row h)))

/-- The body text built for a delimited file: row-count banner, header
line, dash separator line, the first 10 records, and a trailing
`"... and k more rows"` note when more than 10 records exist; the fixed
marker string for an empty record set. -/
def csvContentText (content : List Record) : String :=
  match content with
  | [] => "Empty CSV file"
  | first :: _ =>
    let headers := first.map Prod.fst
    let base := "CSV Data (" ++ toString content.length ++ " rows):\n\n"
      ++ String.intercalate " | " headers ++ "\n"
      ++ String.intercalate " | " (headers.map (fun _ => "---")) ++ "\n"
      ++ String.join ((content.take 10).map
          (fun row => renderRow headers row ++ "\n"))
    if content.length > 10 then
      base ++ "\n... and " ++ toString (content.length - 10) ++ " more rows"
    else base

/-- The `file_info` summary attached to the result. -/
structure FileInfo where
  filename : String
  content_type : String
  file_size : Nat
deriving DecidableEq, Repr

/-- The merged dictionary `create_notion_page_from_file` returns. -/
structure FromFileResult where
  page : CreatePageResult
  file_info : FileInfo
deriving Repr

/-- Python's `a or b` on an optional string: `b` when `a` is `None` or
empty (falsy), else the string itself. -/
def pyOrStr (a : Option String) (b : String) : String :=
  match a with
  | some s => if s = "" then b else s
  | none => b

/-- The reading phase of `create_notion_page_from_file`: dispatch on the
lower-cased path suffix to a reader and body formatter (`.json` →
pretty-printed JSON, `.csv` → the delimited rendering, anything else →
the raw text), producing the `file_info` summary and the formatted body
text (`content_text`). -/
def readFileForPage (fs : FS) (file_path : String) :
    Except PyError (FileInfo × String) :=
  let extension := strLower (pathSuffix file_path)
  if extension = ".json" then
    match read_json_file fs file_path with
    | .ok fc => .ok ({ filename := fc.filename,
                       content_type := fc.content_type,
                       file_size := fc.size }, jsonDumps fc.content)
    | .error e => .error e
  else if extension = ".csv" then
    match read_csv_file fs file_path "," none with
    | .ok fc => .ok ({ filename := fc.filename,
                       content_type := fc.content_type,
                       file_size := fc.size }, csvContentText fc.content)
    | .error e => .error e
  else
    match read_text_file fs file_path with
    | .ok fc => .ok ({ filename := fc.filename,
                       content_type := fc.content_type,
                       file_size := fc.size }, fc.content)
    | .error e => .error e

/-- `create_notion_page_from_file`: read and format the file via
`readFileForPage`, default the title to `"File: " + filename` when
`page_title` is falsy, delegate to `create_notion_page`, and attach
`file_info`.  Reader failures propagate before any network call. -/
def create_notion_page_from_file (client : Option Remote) (fs : FS)
    (database_id file_path : String) (page_title : Option String) :
    Except PyError FromFileResult × List NetCall :=
  match readFileForPage fs file_path with
  | .error e => (.error e, [])
  | .ok (info, content_text) =>
    let title := pyOrStr page_title ("File: " ++ info.filename)
    match create_notion_page client database_id title (some content_text) none with
    | (.ok page_result, calls) =>
      (.ok { page := page_result, file_info := info }, calls)
    | (.error e, calls) => (.error e, calls)

/-! ## The mock dispatcher (`examples/test_demo.py`) -/

/-- A tool handler: named arguments in, either a result value or the
message of the exception it raised. -/
def ToolHandler := List (String × Json) → Except String Json

/-- `self.tools[tool_name]` lookup. -/
def lookupTool (tools : List (String × ToolHandler)) (name : String) :
    Option ToolHandler :=
  match List.find? (fun t => t.1 = name) tools with
  | some t => some t.2
  | none => none

/-- The uniform `\x7b"error": message\x7d` envelope. -/
def errEnvelope (msg : String) : Json := .obj [("error", .str msg)]

/-- `MockMCPClient.call_tool`: unknown names produce the tool-not-found
envelope; a handler's exception is captured into the error envelope; a
handler's result is returned as-is.  The function is total: no outcome
propagates as an uncaught exception. -/
def call_tool (tools : List (String × ToolHandler)) (tool_name : String)
    (args : List (String × Json)) : Json :=
  match lookupTool tools tool_name with
  | some handler =>
    match handler args with
    | .ok result => result
    | .error e => errEnvelope e
  | none => errEnvelope ("Tool not found: " ++ tool_name)

/-- Look up a named argument (keyword binding of `**args`). -/
def argStr (args : List (String × Json)) (key : String) : Option String :=
  match List.find? (fun kv => kv.1 = key) args with
  | some (_, .str s) => some s
  | _ => none

/-- A mock reader handler as in `MockMCPClient`: requires its path
argument (a missing or mistyped keyword raises a `TypeError`, surfaced as
the handler's error) and returns the fixed mock payload. -/
def mockReaderHandler (pathKey ctype : String) : ToolHandler := fun args =>
  match argStr args pathKey with
  | some p => .ok (.obj [("filename", .str (pathName p)),
                         ("content_type", .str ctype),
                         ("status", .str "mock_success")])
  | none => .error ("TypeError: missing required argument: " ++ pathKey)

/-- The seven-entry tool table `MockMCPClient.__init__` registers. -/
def mockTools : List (String × ToolHandler) :=
  [("read_text_file", mockReaderHandler "file_path" "text"),
   ("read_json_file", mockReaderHandler "file_path" "json"),
   ("read_csv_file", mockReaderHandler "file_path" "csv"),
   ("list_files_in_directory", fun args =>
     match argStr args "directory_path" with
     | some d => .ok (.obj [("directory", .str d),
                            ("files", .arr [.str "mock_file1.txt",
                                            .str "mock_file2.json"]),
                            ("status", .str "mock_success")])
     | none => .error "TypeError: missing required argument: directory_path"),
   ("create_notion_page", fun args =>
     match argStr args "database_id", argStr args "title" with
     | some _, some t => .ok (.obj [("page_id", .str "mock_page_id"),
                                    ("title", .str t),
                                    ("status", .str "mock_success")])
     | _, _ => .error "TypeError: missing required argument"),
   ("create_notion_page_from_file", fun args =>
     match argStr args "database_id", argStr args "file_path" with
     | some _, some p => .ok (.obj [("page_id", .str "mock_page_id"),
                                    ("file_path", .str p),
                                    ("status", .str "mock_success")])
     | _, _ => .error "TypeError: missing required argument"),
   ("get_notion_databases", fun _ =>
     .ok (.arr [.obj [("id", .str "mock_db_id"),
                      ("title", .str "Mock Database"),
                      ("status", .str "mock_success")]]))]

/-! ## Concrete fixtures for witnesses and counterexamples -/

/-- A filesystem with nothing in it. -/
def emptyFS : FS := ⟨fun _ => none⟩

/-- A delimited file with a header row and 15 data rows. -/
def sampleCsv : String :=
  "name,score\nr1,1\nr2,2\nr3,3\nr4,4\nr5,5\nr6,6\nr7,7\nr8,8\nr9,9\nr10,10\nr11,11\nr12,12\nr13,13\nr14,14\nr15,15\n"

/-- Direct entries of the sample directory: three regular files and a
subdirectory that itself contains a `.json` file. -/
def docsEntries : List (String × FSNode) :=
  [("a.json", .file "1"), ("b.txt", .file "x"), ("C.JSON", .file "2"),
   ("sub", .dir [("d.json", .file "3")])]

/-- The sample filesystem used by witnesses: a text file, a JSON file, a
15-row delimited file, and a directory. -/
def witnessFS : FS :=
  ⟨fun p =>
    if p = "notes.txt" then some (.file "hello")
    else if p = "data.json" then some (.file "[1, 2]")
    else if p = "table.csv" then some (.file sampleCsv)
    else if p = "docs" then some (.dir docsEntries)
    else none⟩

/-- A remote oracle that accepts every create call with a fixed response
and answers searches with an empty result list. -/
def okRemote : Remote :=
  ⟨fun _ => .ok ⟨"pid", "https://example.org/p", "2024-01-01T00:00:00Z"⟩,
   .ok []⟩

/-- A filesystem holding a directory at `d`, a syntactically invalid JSON
file at `bad.json`, and nothing else. -/
def c2FS : FS :=
  ⟨fun p =>
    if p = "d" then some (.dir [])
    else if p = "bad.json" then some (.file "[1,")
    else none⟩

/-- Does a `read_json_file` outcome carry a `ValueError` (the exception
class `read_text_file` uses for its not-a-regular-file check)? -/
def jsonResultIsValueError : Except PyError (FileContent Json) → Bool
  | .error (.valueError _) => true
  | _ => false

/-- A file whose text parses both as JSON and as a (header-only)
delimited file and whose character and byte lengths differ. -/
def c6FS : FS :=
  ⟨fun p => if p = "f" then some (.file "[1, \"é\"]") else none⟩

/-- A two-row delimited file whose first column is all integer literals. -/
def csvIntFS : FS :=
  ⟨fun p => if p = "t.csv" then some (.file "a,b\n1,x\n2,y") else none⟩

/-- The records of the 15-row sample file. -/
def csv15Records : List Record :=
  [[("name", .strVal "r1"), ("score", .intVal 1)],
   [("name", .strVal "r2"), ("score", .intVal 2)],
   [("name", .strVal "r3"), ("score", .intVal 3)],
   [("name", .strVal "r4"), ("score", .intVal 4)],
   [("name", .strVal "r5"), ("score", .intVal 5)],
   [("name", .strVal "r6"), ("score", .intVal 6)],
   [("name", .strVal "r7"), ("score", .intVal 7)],
   [("name", .strVal "r8"), ("score", .intVal 8)],
   [("name", .strVal "r9"), ("score", .intVal 9)],
   [("name", .strVal "r10"), ("score", .intVal 10)],
   [("name", .strVal "r11"), ("score", .intVal 11)],
   [("name", .strVal "r12"), ("score", .intVal 12)],
   [("name", .strVal "r13"), ("score", .intVal 13)],
   [("name", .strVal "r14"), ("score", .intVal 14)],
   [("name", .strVal "r15"), ("score", .intVal 15)]]

/-! # Claim theorems -/

/-- C1 (amended): with no client handle configured, `create_notion_page`
and `get_notion_databases` return the Unconfigured configuration error
and attempt no network call; `create_notion_page_from_file` attempts no
network call either, and returns the Unconfigured error whenever its
file-reading phase succeeds (a file-reading failure propagates instead,
still with no network I/O). -/
theorem unconfigured_ops_no_network (fs : FS)
    (database_id title file_path : String) (content : Option String)
    (properties : Option (List (String × Json))) (page_title : Option String) :
    create_notion_page none database_id title content properties =
      (.error unconfiguredError, []) ∧
    get_notion_databases none = (.error unconfiguredError, []) ∧
    (create_notion_page_from_file none fs database_id file_path page_title).2 = [] ∧
    (∀ info text, readFileForPage fs file_path = .ok (info, text) →
      (create_notion_page_from_file none fs database_id file_path page_title).1 =
        .error unconfiguredError) := by
  refine ⟨rfl, rfl, ?_, ?_⟩
  · cases h : readFileForPage fs file_path with
    | ok p => simp [create_notion_page_from_file, h, create_notion_page]
    | error e => simp [create_notion_page_from_file, h]
  · intro info text h
    simp [create_notion_page_from_file, h, create_notion_page]

/-- C1 witness: on a real text file with no client handle, the
file-reading phase succeeds and the operation returns exactly the
Unconfigured error. -/
theorem unconfigured_ops_no_network_witness :
    readFileForPage witnessFS "notes.txt" = .ok (⟨"notes.txt", "text", 5⟩, "hello") ∧
    (create_notion_page_from_file none witnessFS "db" "notes.txt" none).1 =
      .error unconfiguredError :=
  ⟨rfl, (unconfigured_ops_no_network witnessFS "db" "t" "notes.txt" none
      none none).2.2.2 ⟨"notes.txt", "text", 5⟩ "hello" rfl⟩

/-- C1 counterexample: with no client handle,
`create_notion_page_from_file` on a missing path returns the
file-not-found error, not the Unconfigured configuration error the claim
requires of every operation. -/
theorem unconfigured_from_file_counterexample :
    (create_notion_page_from_file none emptyFS "db" "missing.json" none).1 =
      .error (.fileNotFound "File not found: missing.json") ∧
    PyError.fileNotFound "File not found: missing.json" ≠ unconfiguredError :=
  ⟨rfl, by decide⟩

/-- C2 (amended): `read_json_file` performs the existence check (NotFound
on a missing path, exactly as `read_text_file` does) and wraps a JSON
parse failure as `ValueError("Invalid JSON format: …")` preserving the
parser's message — but, unlike `read_text_file`, it performs no
regular-file type check: an existing non-file path surfaces as the
OS-level error from `open`, not as `ValueError("Path is not a file")`. -/
theorem read_json_checks (fs : FS) (p : String) :
    (pathExists fs p = false →
      read_json_file fs p = .error (.fileNotFound ("File not found: " ++ p)) ∧
      read_text_file fs p = .error (.fileNotFound ("File not found: " ++ p))) ∧
    (∀ entries, fs.lookup p = some (.dir entries) →
      read_json_file fs p = .error (.isADirectoryError ("Is a directory: " ++ p)) ∧
      read_text_file fs p = .error (.valueError ("Path is not a file: " ++ p))) ∧
    (∀ text e, fs.lookup p = some (.file text) → jsonLoads text = .error e →
      read_json_file fs p = .error (.valueError ("Invalid JSON format: " ++ e))) := by
  refine ⟨?_, ?_, ?_⟩
  · intro h
    constructor <;> simp [read_json_file, read_text_file, h]
  · intro entries h
    constructor <;>
      simp [read_json_file, read_text_file, pathExists, isRegularFile, openRead, h]
  · intro text e h hparse
    simp [read_json_file, pathExists, openRead, h, hparse]

/-- C2 witness: the three error paths at concrete inputs. -/
theorem read_json_checks_witness :
    pathExists c2FS "missing" = false ∧
    read_json_file c2FS "missing" = .error (.fileNotFound "File not found: missing") ∧
    c2FS.lookup "d" = some (.dir []) ∧
    read_json_file c2FS "d" = .error (.isADirectoryError "Is a directory: d") ∧
    c2FS.lookup "bad.json" = some (.file "[1,") ∧
    jsonLoads "[1," = .error "Expecting value" ∧
    read_json_file c2FS "bad.json" =
      .error (.valueError "Invalid JSON format: Expecting value") :=
  ⟨rfl, ((read_json_checks c2FS "missing").1 rfl).1, rfl,
   ((read_json_checks c2FS "d").2.1 [] rfl).1, rfl, rfl,
   (read_json_checks c2FS "bad.json").2.2 "[1," "Expecting value" rfl rfl⟩

/-- C2 counterexample: on an existing directory path `read_json_file`
raises the OS-level is-a-directory error from `open`, not the
`ValueError`/InvalidInput the claim requires: it does not perform
`read_text_file`'s regular-file type check. -/
theorem read_json_dir_counterexample :
    read_json_file c2FS "d" = .error (.isADirectoryError "Is a directory: d") ∧
    jsonResultIsValueError (read_json_file c2FS "d") = false :=
  ⟨rfl, rfl⟩

/-- C6: the size field's semantics across the three readers, for any
readable file: `read_text_file` and `read_json_file` report the character
length of the loaded text, while `read_csv_file` reports the file's
on-disk byte length. -/
theorem reader_size_semantics (fs : FS) (p text : String)
    (h : fs.lookup p = some (.file text)) :
    (∀ fc, read_text_file fs p = .ok fc → fc.size = text.length) ∧
    (∀ fc, read_json_file fs p = .ok fc → fc.size = text.length) ∧
    (∀ fc delim mr, read_csv_file fs p delim mr = .ok fc →
      fc.size = text.utf8ByteSize) := by
  refine ⟨?_, ?_, ?_⟩
  · intro fc hfc
    simp [read_text_file, pathExists, isRegularFile, openRead, h] at hfc
    simp [← hfc]
  · intro fc hfc
    simp [read_json_file, pathExists, openRead, h] at hfc
    cases hparse : jsonLoads text with
    | error e => simp [hparse] at hfc
    | ok v =>
      simp [hparse] at hfc
      simp [← hfc]
  · intro fc delim mr hfc
    simp [read_csv_file, pathExists, openRead, h] at hfc
    cases hparse : pdReadCsv text delim mr with
    | error e => simp [hparse] at hfc
    | ok records =>
      simp [hparse] at hfc
      simp [← hfc, statSize, h]

/-- C6 witness: on a file containing a two-byte character the text and
JSON readers report 8 (characters) while the delimited reader reports 9
(bytes). -/
theorem reader_size_semantics_witness :
    c6FS.lookup "f" = some (.file "[1, \"é\"]") ∧
    read_text_file c6FS "f" = .ok ⟨"f", "text", "[1, \"é\"]", 8, "utf-8"⟩ ∧
    (8 : Nat) = ("[1, \"é\"]" : String).length ∧
    read_csv_file c6FS "f" "," none = .ok ⟨"f", "csv", [], 9, "utf-8"⟩ ∧
    (9 : Nat) = ("[1, \"é\"]" : String).utf8ByteSize :=
  ⟨rfl, rfl,
   ((reader_size_semantics c6FS "f" "[1, \"é\"]" rfl).1
     ⟨"f", "text", "[1, \"é\"]", 8, "utf-8"⟩ rfl).symm,
   rfl,
   ((reader_size_semantics c6FS "f" "[1, \"é\"]" rfl).2.2
     ⟨"f", "csv", [], 9, "utf-8"⟩ "," none rfl).symm⟩

/-- C8: the dispatcher resolves the tool name first, answering the
tool-not-found envelope for unknown names; a found handler's exception is
captured into the uniform `error` envelope and its success value returned
as-is — `call_tool` is a total function, so no handler failure propagates
as an uncaught exception. -/
theorem call_tool_envelope (tools : List (String × ToolHandler))
    (name : String) (args : List (String × Json)) :
    (lookupTool tools name = none →
      call_tool tools name args = errEnvelope ("Tool not found: " ++ name)) ∧
    (∀ hd m, lookupTool tools name = some hd → hd args = .error m →
      call_tool tools name args = errEnvelope m) ∧
    (∀ hd v, lookupTool tools name = some hd → hd args = .ok v →
      call_tool tools name args = v) := by
  refine ⟨?_, ?_, ?_⟩
  · intro h
    simp [call_tool, h]
  · intro hd m h1 h2
    simp [call_tool, h1, h2]
  · intro hd v h1 h2
    simp [call_tool, h1, h2]

/-- C8 witness: an unknown name on the mock client's seven-entry table
produces the tool-not-found envelope, and a handler failure (a missing
required argument) is captured into the error envelope. -/
theorem call_tool_envelope_witness :
    lookupTool mockTools "bogus_tool" = none ∧
    call_tool mockTools "bogus_tool" [] =
      errEnvelope "Tool not found: bogus_tool" ∧
    lookupTool mockTools "read_text_file" =
      some (mockReaderHandler "file_path" "text") ∧
    call_tool mockTools "read_text_file" [] =
      errEnvelope "TypeError: missing required argument: file_path" :=
  ⟨rfl, (call_tool_envelope mockTools "bogus_tool" []).1 rfl, rfl,
   (call_tool_envelope mockTools "read_text_file" []).2.1
     (mockReaderHandler "file_path" "text") _ rfl rfl⟩

/-- C9 (amended): `database_id` and `title` are required parameters of
the page-creation request, but neither is validated as non-empty: with a
configured client, every call — whatever its argument strings, empty ones
included — proceeds to attempt exactly one remote create call. -/
theorem create_page_no_emptiness_validation (remote : Remote)
    (database_id title : String) (content : Option String)
    (properties : Option (List (String × Json))) :
    (create_notion_page (some remote) database_id title content
      properties).2.length = 1 := by
  simp only [create_notion_page]
  split <;> rfl

/-- C9 counterexample: a page-creation call with empty collection id and
empty title proceeds as a valid request — it issues the remote create
call (with the empty title embedded in the Name property) and returns a
success result. -/
theorem create_page_empty_counterexample :
    (create_notion_page (some okRemote) "" "" none none).2 =
      [.pagesCreate ⟨"", [("Name", titleProperty "")], []⟩] ∧
    (create_notion_page (some okRemote) "" "" none none).1 =
      .ok ⟨"pid", "https://example.org/p", "", "2024-01-01T00:00:00Z", "success"⟩ :=
  ⟨rfl, rfl⟩

/-- C10: an empty `page_title` is falsy in `page_title or default`, so it
is treated exactly like an absent title: the operation behaves
identically, and the issued create call carries the default
`"File: " + filename` title, which is never the empty string. -/
theorem empty_page_title_defaults (client : Option Remote) (remote : Remote)
    (fs : FS) (database_id file_path : String) :
    create_notion_page_from_file client fs database_id file_path (some "") =
      create_notion_page_from_file client fs database_id file_path none ∧
    (∀ info text, readFileForPage fs file_path = .ok (info, text) →
      (create_notion_page_from_file (some remote) fs database_id file_path
          (some "")).2 =
        [.pagesCreate ⟨database_id,
          [("Name", titleProperty ("File: " ++ info.filename))],
          if text = "" then [] else [paragraphBlock text]⟩] ∧
      ("File: " ++ info.filename) ≠ "") := by
  constructor
  · cases h : readFileForPage fs file_path with
    | error e => simp [create_notion_page_from_file, h]
    | ok p => simp [create_notion_page_from_file, h, pyOrStr]
  · intro info text h
    constructor
    · simp only [create_notion_page_from_file, h, create_notion_page, pyOrStr,
        if_true]
      split <;> rename_i heq <;> split at heq <;> simp_all
    · intro hcontra
      have := congrArg String.length hcontra
      rw [String.length_append] at this
      have h6 : ("File: " : String).length = 6 := rfl
      have h0 : ("" : String).length = 0 := rfl
      rw [h6, h0] at this
      omega

/-- C10 witness: on a real text file, supplying the empty string as
`page_title` yields the same operation as supplying none, and the issued
call carries the `File: notes.txt` default title. -/
theorem empty_page_title_defaults_witness :
    create_notion_page_from_file (some okRemote) witnessFS "db" "notes.txt"
        (some "") =
      create_notion_page_from_file (some okRemote) witnessFS "db" "notes.txt"
        none ∧
    (create_notion_page_from_file (some okRemote) witnessFS "db" "notes.txt"
        (some "")).2 =
      [.pagesCreate ⟨"db", [("Name", titleProperty "File: notes.txt")],
        [paragraphBlock "hello"]⟩] ∧
    ("File: notes.txt" : String) ≠ "" := by
  have h := empty_page_title_defaults (some okRemote) okRemote witnessFS "db"
    "notes.txt"
  exact ⟨h.1, (h.2 ⟨"notes.txt", "text", 5⟩ "hello" rfl).1,
    (h.2 ⟨"notes.txt", "text", 5⟩ "hello" rfl).2⟩

/-- The inferred column-dtype flags are aligned with the header when the
table is rectangular. -/
theorem inferIntFlags_length (ncols : Nat) (rows : List (List String))
    (h : ∀ r ∈ rows, r.length = ncols) :
    (inferIntFlags ncols rows).length = ncols := by
  induction rows with
  | nil => simp [inferIntFlags]
  | cons r rs ih =>
    have hr := h r (List.mem_cons_self r rs)
    have ih' := ih (fun x hx => h x (List.mem_cons_of_mem _ hx))
    simp only [inferIntFlags, List.foldr_cons] at ih' ⊢
    rw [List.length_zipWith, List.length_map, hr, ih']
    omega

/-- C3 (amended): on a rectangular delimited file with a header line and
N data lines, `read_csv_file` without `max_rows` succeeds with exactly N
records, each an insertion-ordered mapping whose key list is exactly the
header row; the values are the pandas-inferred cell contents (integer
columns become integers), not necessarily strings. -/
theorem read_csv_record_shape (fs : FS) (p text : String) (d : Char)
    (headerLine : String) (dataLines : List String)
    (hfile : fs.lookup p = some (.file text))
    (hlines : csvLines text = headerLine :: dataLines)
    (hrect : ∀ l ∈ dataLines,
      (splitOnChar d l).length = (splitOnChar d headerLine).length) :
    ∃ fc, read_csv_file fs p (String.mk [d]) none = .ok fc ∧
      fc.content.length = dataLines.length ∧
      ∀ rec ∈ fc.content, List.map Prod.fst rec = splitOnChar d headerLine := by
  set headers := splitOnChar d headerLine with hh
  set rows := dataLines.map (fun l => splitOnChar d l) with hr
  have hrows : ∀ r ∈ rows, r.length = headers.length := by
    intro r hmem
    rw [hr] at hmem
    obtain ⟨l, hl, rfl⟩ := List.mem_map.mp hmem
    exact hrect l hl
  have hflags : (inferIntFlags headers.length rows).length = headers.length :=
    inferIntFlags_length _ _ hrows
  have hall : rows.all (fun r => r.length = headers.length) = true := by
    simp only [List.all_eq_true, decide_eq_true_eq]
    exact hrows
  have hpd : pdReadCsv text (String.mk [d]) none =
      .ok (rows.map (fun r =>
        headers.zip (List.zipWith parseCell (inferIntFlags headers.length rows) r))) := by
    simp only [pdReadCsv, hlines, ← hh, ← hr, hall]
    rfl
  refine ⟨⟨pathName p, "csv",
    rows.map (fun r =>
      headers.zip (List.zipWith parseCell (inferIntFlags headers.length rows) r)),
    statSize fs p, "utf-8"⟩, ?_, ?_, ?_⟩
  · simp [read_csv_file, pathExists, openRead, hfile, hpd]
  · simp [hr]
  · intro rec hmem
    obtain ⟨r, hrmem, rfl⟩ := List.mem_map.mp hmem
    have h1 : r.length = headers.length := hrows r hrmem
    have h2 : (List.zipWith parseCell (inferIntFlags headers.length rows) r).length =
        headers.length := by
      rw [List.length_zipWith, hflags, h1]
      omega
    exact List.map_fst_zip _ _ (le_of_eq h2.symm)

/-- C3 witness: the 15-row sample file parses to exactly 15 records with
key list `name, score`. -/
theorem read_csv_record_shape_witness :
    ((read_csv_file witnessFS "table.csv" (String.mk [',']) none).map
      (fun fc => fc.content.length)) = .ok 15 := by
  obtain ⟨fc, h1, h2, -⟩ := read_csv_record_shape witnessFS "table.csv" sampleCsv
    ',' "name,score"
    ["r1,1", "r2,2", "r3,3", "r4,4", "r5,5", "r6,6", "r7,7", "r8,8", "r9,9",
     "r10,10", "r11,11", "r12,12", "r13,13", "r14,14", "r15,15"]
    rfl rfl (by decide)
  rw [h1]
  simp only [Except.map, h2]
  rfl

/-- C3 counterexample: on `a,b` over rows `1,x` and `2,y` the records
carry the pandas-inferred integer 1 (not the string "1") for column `a`:
record values are not the cell contents as strings. -/
theorem read_csv_strings_counterexample :
    read_csv_file csvIntFS "t.csv" "," none =
      .ok ⟨"t.csv", "csv",
        [[("a", .intVal 1), ("b", .strVal "x")],
         [("a", .intVal 2), ("b", .strVal "y")]], 11, "utf-8"⟩ ∧
    CellVal.intVal 1 ≠ CellVal.strVal "1" :=
  ⟨rfl, by decide⟩

/-- The delimited body text always has a positive length. -/
theorem csvContentText_pos (rs : List Record) :
    0 < (csvContentText rs).length := by
  cases rs with
  | nil => decide
  | cons first rest =>
    have h10 : ("CSV Data (" : String).length = 10 := rfl
    simp only [csvContentText]
    split <;> simp [String.length_append, h10]

/-- The delimited body text is never the empty string. -/
theorem csvContentText_ne_empty (rs : List Record) : csvContentText rs ≠ "" := by
  intro h
  have hpos := csvContentText_pos rs
  rw [h] at hpos
  exact absurd hpos (by decide)

/-- C4: for a delimited file the attempted create call carries the body
`csvContentText`; a non-empty record set renders the banner, the
pipe-joined header line, the dash separator line, exactly the first
min(10, N) records, and the `"... and N − 10 more rows"` tail exactly
when N > 10; an empty record set renders the fixed marker string. -/
theorem from_file_csv_body (remote : Remote) (fs : FS)
    (database_id file_path : String) (page_title : Option String)
    (fc : FileContent (List Record))
    (hsuffix : strLower (pathSuffix file_path) = ".csv")
    (hread : read_csv_file fs file_path "," none = .ok fc) :
    (∃ pd, (create_notion_page_from_file (some remote) fs database_id file_path
        page_title).2 = [.pagesCreate pd] ∧
      pd.children = [paragraphBlock (csvContentText fc.content)]) ∧
    (fc.content = [] → csvContentText fc.content = "Empty CSV file") ∧
    (∀ first rest, fc.content = first :: rest →
      csvContentText fc.content =
        "CSV Data (" ++ toString fc.content.length ++ " rows):\n\n"
          ++ String.intercalate " | " (first.map Prod.fst) ++ "\n"
          ++ String.intercalate " | " ((first.map Prod.fst).map (fun _ => "---"))
          ++ "\n"
          ++ String.join ((fc.content.take 10).map (fun row =>
              renderRow (first.map Prod.fst) row ++ "\n"))
          ++ (if 10 < fc.content.length then
              "\n... and " ++ toString (fc.content.length - 10) ++ " more rows"
             else "") ∧
      (fc.content.take 10).length = min 10 fc.content.length) := by
  refine ⟨?_, ?_, ?_⟩
  · refine ⟨⟨database_id,
      [("Name", titleProperty (pyOrStr page_title ("File: " ++ fc.filename)))],
      [paragraphBlock (csvContentText fc.content)]⟩, ?_, rfl⟩
    have hne := csvContentText_ne_empty fc.content
    have hrfp : readFileForPage fs file_path =
        .ok (⟨fc.filename, fc.content_type, fc.size⟩, csvContentText fc.content) := by
      simp [readFileForPage, hsuffix, hread]
    simp only [create_notion_page_from_file, hrfp, create_notion_page,
      if_neg hne]
    split <;> rename_i heq <;> split at heq <;> simp_all
  · intro h
    rw [h]
    rfl
  · intro first rest h
    rw [h]
    constructor
    · simp only [csvContentText]
      split <;> simp [String.append_assoc]
    · rw [List.length_take]

/-- C4 witness: the 15-row sample file reads to 15 records and renders a
body with exactly the first 10 rows and a "... and 5 more rows" tail. -/
theorem from_file_csv_body_witness :
    read_csv_file witnessFS "table.csv" "," none =
      .ok ⟨"table.csv", "csv", csv15Records, 98, "utf-8"⟩ ∧
    csvContentText csv15Records =
      "CSV Data (15 rows):\n\nname | score\n--- | ---\nr1 | 1\nr2 | 2\nr3 | 3\nr4 | 4\nr5 | 5\nr6 | 6\nr7 | 7\nr8 | 8\nr9 | 9\nr10 | 10\n\n... and 5 more rows" ∧
    (csv15Records.take 10).length = min 10 15 := by
  have h := from_file_csv_body okRemote witnessFS "db" "table.csv" none
    ⟨"table.csv", "csv", csv15Records, 98, "utf-8"⟩ rfl rfl
  obtain ⟨-, -, h3⟩ := h
  obtain ⟨heq, hlen⟩ := h3 _ _ rfl
  exact ⟨rfl, heq.trans (by rfl), hlen⟩

/-- Is the node a regular file holding some text? -/
theorem FSNode.isFile_iff (n : FSNode) : n.isFile = true ↔ ∃ t, n = .file t := by
  cases n <;> simp [FSNode.isFile]

/-- C7: listing an existing directory succeeds, returning exactly the
direct entries that are regular files and whose name suffix
case-insensitively matches the extension filter — each as the path
`dir/name` — so subdirectory contents never appear; `total_count` is the
number of files returned. -/
theorem list_directory_spec (fs : FS) (p : String)
    (exts : Option (List String)) (entries : List (String × FSNode))
    (h : fs.lookup p = some (.dir entries)) :
    ∃ r, list_files_in_directory fs p exts = .ok r ∧
      r.total_count = r.files.length ∧
      ∀ f, f ∈ r.files ↔ ∃ e ∈ entries, (∃ t, e.2 = .file t) ∧
        extMatches exts e.1 = true ∧ f = p ++ "/" ++ e.1 := by
  refine ⟨⟨p, (entries.filter (fun e => e.2.isFile && extMatches exts e.1)).map
      (fun e => p ++ "/" ++ e.1),
    ((entries.filter (fun e => e.2.isFile && extMatches exts e.1)).map
      (fun e => p ++ "/" ++ e.1)).length⟩, ?_, rfl, ?_⟩
  · simp [list_files_in_directory, pathExists, isDirectory, h]
  · intro f
    simp only [List.mem_map, List.mem_filter, Bool.and_eq_true, FSNode.isFile_iff]
    constructor
    · rintro ⟨e, ⟨he, hf, hm⟩, rfl⟩
      exact ⟨e, he, hf, hm, rfl⟩
    · rintro ⟨e, he, hf, hm, rfl⟩
      exact ⟨e, ⟨he, hf, hm⟩, rfl⟩

/-- C7 witness: with filter `[".json"]`, the sample directory holding
`a.json`, `b.txt`, `C.JSON` and a subdirectory `sub` (containing
`d.json`) lists exactly `a.json` and `C.JSON` — the `.JSON` suffix
matches case-insensitively and the subdirectory is never entered. -/
theorem list_directory_spec_witness :
    list_files_in_directory witnessFS "docs" (some [".json"]) =
      .ok ⟨"docs", ["docs/a.json", "docs/C.JSON"], 2⟩ ∧
    "docs/C.JSON" ∈ ["docs/a.json", "docs/C.JSON"] ∧
    "docs/sub/d.json" ∉ ["docs/a.json", "docs/C.JSON"] := by
  obtain ⟨r, h1, -, h3⟩ :=
    list_directory_spec witnessFS "docs" (some [".json"]) docsEntries rfl
  have hrr : r = ⟨"docs", ["docs/a.json", "docs/C.JSON"], 2⟩ :=
    Except.ok.inj (h1.symm.trans rfl)
  have hmem := (h3 "docs/C.JSON").mpr
    ⟨("C.JSON", .file "2"),
     List.mem_cons_of_mem _ (List.mem_cons_of_mem _ (List.mem_cons_self _ _)),
     ⟨"2", rfl⟩, rfl, rfl⟩
  rw [hrr] at hmem
  exact ⟨rfl, hmem, by decide⟩

/-! ## Round-trip lemmas for the JSON printer and parser (claim C5) -/

theorem skipWs_of_head (c : Char) (cs : List Char) (h : isJsonWs c = false) :
    skipWs (c :: cs) = c :: cs := by
  simp [skipWs, h]

theorem skipWs_ws (c : Char) (cs : List Char) (h : isJsonWs c = true) :
    skipWs (c :: cs) = skipWs cs := by
  simp [skipWs, h]

theorem skipWs_replicate (k : Nat) (cs : List Char) :
    skipWs (List.replicate k ' ' ++ cs) = skipWs cs := by
  induction k with
  | zero => simp
  | succ m ih => simpa [List.replicate_succ, skipWs, isJsonWs] using ih

theorem skipWs_ind (lvl : Nat) (cs : List Char) :
    skipWs ((ind lvl).data ++ cs) = skipWs cs := by
  simpa [ind] using skipWs_replicate (2 * lvl) cs

theorem digitChar_isDigit (n : Nat) (h : n < 10) : (digitChar n).isDigit = true := by
  interval_cases n <;> decide

theorem digitChar_toNat (n : Nat) (h : n < 10) : (digitChar n).toNat = 48 + n := by
  interval_cases n <;> decide

theorem digitChar_eq_zero (n : Nat) (h : n < 10) : digitChar n = '0' ↔ n = 0 := by
  interval_cases n <;> simp <;> decide

theorem digitsToNat_append_digit (ds : List Char) (c : Char) :
    digitsToNat (ds ++ [c]) = digitsToNat ds * 10 + (c.toNat - 48) := by
  simp [digitsToNat, List.foldl_append]

theorem natReprAux_spec : ∀ fuel n, n < fuel →
    natReprAux fuel n ≠ [] ∧
    (∀ c ∈ natReprAux fuel n, c.isDigit = true) ∧
    digitsToNat (natReprAux fuel n) = n ∧
    (∀ ds, natReprAux fuel n = '0' :: ds → ds = []) := by
  intro fuel
  induction fuel with
  | zero => intro n h; omega
  | succ f ih =>
    intro n h
    by_cases h10 : n < 10
    · refine ⟨by simp [natReprAux, h10], ?_, ?_, ?_⟩
      · intro c hc
        simp [natReprAux, h10] at hc
        rw [hc]
        exact digitChar_isDigit n h10
      · simp [natReprAux, h10, digitsToNat]
        rw [digitChar_toNat n h10]
        omega
      · intro ds hds
        simp [natReprAux, h10] at hds
        exact hds.2
    · obtain ⟨hne, hdig, hval, hlead⟩ := ih (n / 10) (by omega)
      have hstep : natReprAux (f + 1) n =
          natReprAux f (n / 10) ++ [digitChar (n % 10)] := by
        simp [natReprAux, h10]
      refine ⟨?_, ?_, ?_, ?_⟩
      · rw [hstep]
        simp
      · intro c hc
        rw [hstep] at hc
        rcases List.mem_append.mp hc with hc | hc
        · exact hdig c hc
        · simp at hc
          rw [hc]
          exact digitChar_isDigit _ (Nat.mod_lt _ (by omega))
      · rw [hstep, digitsToNat_append_digit, hval,
          digitChar_toNat _ (Nat.mod_lt _ (by omega))]
        omega
      · intro ds hds
        rw [hstep] at hds
        cases haux : natReprAux f (n / 10) with
        | nil => exact absurd haux hne
        | cons a as =>
          rw [haux] at hds
          simp at hds
          obtain ⟨ha, -⟩ := hds
          rw [ha] at haux
          have has : as = [] := hlead as haux
          rw [has] at haux
          rw [haux] at hval
          have : digitsToNat ['0'] = 0 := by decide
          omega

theorem takeDigits_append (ds rest : List Char)
    (h1 : ∀ c ∈ ds, c.isDigit = true)
    (h2 : ∀ c cs, rest = c :: cs → c.isDigit = false) :
    takeDigits (ds ++ rest) = (ds, rest) := by
  induction ds with
  | nil =>
    cases rest with
    | nil => rfl
    | cons c cs => simp [takeDigits, h2 c cs rfl]
  | cons d ds ih =>
    have hd := h1 d (List.mem_cons_self _ _)
    simp [takeDigits, hd, ih (fun c hc => h1 c (List.mem_cons_of_mem _ hc))]

theorem parseNumCore_repr (m : Nat) (neg : Bool) (rest : List Char)
    (h : NumSafe rest) :
    parseNumCore neg (natReprAux (m + 1) m ++ rest) =
      .ok (.num (if neg then -(m : Int) else (m : Int)), rest) := by
  have hrest2 : ∀ c cs, rest = c :: cs → c.isDigit = false := by
    intro c cs hc
    rw [hc] at h
    exact h.1
  obtain ⟨hne, hdig, hval, hlead⟩ := natReprAux_spec (m + 1) m (by omega)
  have htd := takeDigits_append _ rest hdig hrest2
  cases haux : natReprAux (m + 1) m with
  | nil => exact absurd haux hne
  | cons d ds =>
    rw [haux] at htd hval
    have hcond : ¬(d = '0' ∧ ds ≠ []) := by
      rintro ⟨h0, hne'⟩
      rw [h0] at haux
      exact hne' (hlead ds haux)
    simp only [parseNumCore, htd, if_neg hcond]
    cases rest with
    | nil => simp [hval]
    | cons c cs =>
      obtain ⟨-, hdot, he, hE⟩ := h
      split
      · rename_i heq
        rw [List.cons.injEq] at heq
        exact absurd heq.1 hdot
      · rename_i heq
        rw [List.cons.injEq] at heq
        exact absurd heq.1 he
      · rename_i heq
        rw [List.cons.injEq] at heq
        exact absurd heq.1 hE
      · simp [hval]

theorem parseNum_intRepr (n : Int) (rest : List Char) (h : NumSafe rest) :
    parseNum ((intRepr n).data ++ rest) = .ok (.num n, rest) := by
  by_cases hn : n < 0
  · have hdata : (intRepr n).data ++ rest =
        '-' :: (natReprAux (n.natAbs + 1) n.natAbs ++ rest) := by
      simp [intRepr, hn, natRepr, String.data_append]
    rw [hdata]
    have hcore := parseNumCore_repr n.natAbs true rest h
    simp only [parseNum, hcore]
    have : -((n.natAbs : Nat) : Int) = n := by omega
    simpa using this
  · have hdata : (intRepr n).data ++ rest =
        natReprAux (n.toNat + 1) n.toNat ++ rest := by
      simp [intRepr, hn, natRepr]
    rw [hdata]
    obtain ⟨hne, hdig, -, -⟩ := natReprAux_spec (n.toNat + 1) n.toNat (by omega)
    have hcore := parseNumCore_repr n.toNat false rest h
    cases haux : natReprAux (n.toNat + 1) n.toNat with
    | nil => exact absurd haux hne
    | cons d ds =>
      have hdd : d.isDigit = true :=
        hdig d (by rw [haux]; exact List.mem_cons_self _ _)
      have hdash : d ≠ '-' := by
        intro hc
        rw [hc] at hdd
        exact absurd hdd (by decide)
      rw [haux] at hcore
      simp only [List.cons_append, parseNum]
      split
      · rename_i heq
        rw [List.cons.injEq] at heq
        exact absurd heq.1 hdash
      · have : ((n.toNat : Nat) : Int) = n := by omega
        rw [← List.cons_append]
        rw [hcore]
        simpa using this

theorem hexVal_hexDigit (d : Nat) (h : d < 16) : hexVal? (hexDigit d) = some d := by
  interval_cases d <;> rfl

theorem readHex4_hex4Digits (n : Nat) (h : n < 65536) (rest : List Char) :
    readHex4 (hex4Digits n ++ rest) = some (n, rest) := by
  have h1 : n / 4096 % 16 < 16 := Nat.mod_lt _ (by omega)
  have h2 : n / 256 % 16 < 16 := Nat.mod_lt _ (by omega)
  have h3 : n / 16 % 16 < 16 := Nat.mod_lt _ (by omega)
  have h4 : n % 16 < 16 := Nat.mod_lt _ (by omega)
  simp only [hex4Digits, List.cons_append, List.nil_append, readHex4,
    hexVal_hexDigit _ h1, hexVal_hexDigit _ h2, hexVal_hexDigit _ h3,
    hexVal_hexDigit _ h4]
  have : (((n / 4096 % 16 * 16) + n / 256 % 16) * 16 + n / 16 % 16) * 16 + n % 16
      = n := by omega
  rw [this]

/-- The unicode-validity range of a character's code point. -/
theorem char_valid_ranges (c : Char) :
    c.toNat < 0xd800 ∨ (0xdfff < c.toNat ∧ c.toNat < 0x110000) := by
  have h := c.valid
  simp only [UInt32.isValidChar, Nat.isValidChar] at h
  exact h

theorem parseStringBody_escape : ∀ (cs : List Char) (fuel : Nat) (rest : List Char),
    cs.length < fuel →
    parseStringBody fuel (escapeChars cs ++ '"' :: rest) = .ok (cs, rest) := by
  intro cs
  induction cs with
  | nil =>
    intro fuel rest hf
    cases fuel with
    | zero => omega
    | succ f => rfl
  | cons c cs ih =>
    intro fuel rest hf
    cases fuel with
    | zero => omega
    | succ f =>
    have hih := ih f rest (by simpa using hf)
    have hv := char_valid_ranges c
    by_cases h1 : c = '"'
    · subst h1
      have hesc : escapeChars ('"' :: cs) ++ '"' :: rest =
          '\\' :: '"' :: (escapeChars cs ++ '"' :: rest) := by
        simp [escapeChars, escapeChar]
      rw [hesc,
        show ∀ t, parseStringBody (f + 1) ('\\' :: '"' :: t) =
          (parseStringBody f t).map (fun p => ('"' :: p.1, p.2)) from fun _ => rfl,
        hih]
      rfl
    by_cases h2 : c = '\\'
    · subst h2
      have hesc : escapeChars ('\\' :: cs) ++ '"' :: rest =
          '\\' :: '\\' :: (escapeChars cs ++ '"' :: rest) := by
        simp [escapeChars, escapeChar]
      rw [hesc,
        show ∀ t, parseStringBody (f + 1) ('\\' :: '\\' :: t) =
          (parseStringBody f t).map (fun p => ('\\' :: p.1, p.2)) from fun _ => rfl,
        hih]
      rfl
    by_cases h3 : c = '\n'
    · subst h3
      have hesc : escapeChars ('\n' :: cs) ++ '"' :: rest =
          '\\' :: 'n' :: (escapeChars cs ++ '"' :: rest) := by
        simp [escapeChars, escapeChar]
      rw [hesc,
        show ∀ t, parseStringBody (f + 1) ('\\' :: 'n' :: t) =
          (parseStringBody f t).map (fun p => ('\n' :: p.1, p.2)) from fun _ => rfl,
        hih]
      rfl
    by_cases h4 : c = '\r'
    · subst h4
      have hesc : escapeChars ('\r' :: cs) ++ '"' :: rest =
          '\\' :: 'r' :: (escapeChars cs ++ '"' :: rest) := by
        simp [escapeChars, escapeChar]
      rw [hesc,
        show ∀ t, parseStringBody (f + 1) ('\\' :: 'r' :: t) =
          (parseStringBody f t).map (fun p => ('\r' :: p.1, p.2)) from fun _ => rfl,
        hih]
      rfl
    by_cases h5 : c = '\t'
    · subst h5
      have hesc : escapeChars ('\t' :: cs) ++ '"' :: rest =
          '\\' :: 't' :: (escapeChars cs ++ '"' :: rest) := by
        simp [escapeChars, escapeChar]
      rw [hesc,
        show ∀ t, parseStringBody (f + 1) ('\\' :: 't' :: t) =
          (parseStringBody f t).map (fun p => ('\t' :: p.1, p.2)) from fun _ => rfl,
        hih]
      rfl
    by_cases h6 : c.toNat = 8
    · have hc : Char.ofNat 8 = c := by
        rw [← h6]
        exact Char.ofNat_toNat c
      have hesc : escapeChars (c :: cs) ++ '"' :: rest =
          '\\' :: 'b' :: (escapeChars cs ++ '"' :: rest) := by
        simp [escapeChars, escapeChar, h1, h2, h3, h4, h5, h6]
      rw [hesc,
        show ∀ t, parseStringBody (f + 1) ('\\' :: 'b' :: t) =
          (parseStringBody f t).map (fun p => (Char.ofNat 8 :: p.1, p.2)) from
          fun _ => rfl,
        hih, hc]
      rfl
    by_cases h7 : c.toNat = 12
    · have hc : Char.ofNat 12 = c := by
        rw [← h7]
        exact Char.ofNat_toNat c
      have hesc : escapeChars (c :: cs) ++ '"' :: rest =
          '\\' :: 'f' :: (escapeChars cs ++ '"' :: rest) := by
        simp [escapeChars, escapeChar, h1, h2, h3, h4, h5, h6, h7]
      rw [hesc,
        show ∀ t, parseStringBody (f + 1) ('\\' :: 'f' :: t) =
          (parseStringBody f t).map (fun p => (Char.ofNat 12 :: p.1, p.2)) from
          fun _ => rfl,
        hih, hc]
      rfl
    by_cases h8 : 0x20 ≤ c.toNat ∧ c.toNat ≤ 0x7e
    · have hesc : escapeChars (c :: cs) ++ '"' :: rest =
          c :: (escapeChars cs ++ '"' :: rest) := by
        simp [escapeChars, escapeChar, h1, h2, h3, h4, h5, h6, h7, h8]
      have hctrl : ¬ c.toNat < 0x20 := by omega
      rw [hesc]
      simp only [parseStringBody, if_neg h1, if_neg h2, if_neg hctrl, hih]
      rfl
    by_cases h9 : c.toNat < 0x10000
    · have hesc : escapeChars (c :: cs) ++ '"' :: rest =
          '\\' :: 'u' :: (hex4Digits c.toNat ++ (escapeChars cs ++ '"' :: rest)) := by
        simp [escapeChars, escapeChar, h1, h2, h3, h4, h5, h6, h7, h8, h9, uEscape]
      have hnotHi : ¬ (0xD800 ≤ c.toNat ∧ c.toNat ≤ 0xDBFF) := by
        rcases hv with hv | hv <;> omega
      have hnotLo : ¬ (0xDC00 ≤ c.toNat ∧ c.toNat ≤ 0xDFFF) := by
        rcases hv with hv | hv <;> omega
      rw [hesc]
      simp only [parseStringBody, readHex4_hex4Digits c.toNat h9,
        if_neg hnotHi, if_neg hnotLo, hih, Char.ofNat_toNat]
      rfl
    · have hge : 0x10000 ≤ c.toNat := by omega
      have hlt : c.toNat < 0x110000 := by
        rcases hv with hv | hv <;> omega
      have hdiv : (c.toNat - 0x10000) / 0x400 < 0x400 := by
        apply Nat.div_lt_of_lt_mul
        omega
      have hmod : (c.toNat - 0x10000) % 0x400 < 0x400 := Nat.mod_lt _ (by omega)
      obtain ⟨q, hq⟩ : ∃ q, q = 0xD800 + (c.toNat - 0x10000) / 0x400 := ⟨_, rfl⟩
      obtain ⟨w, hw⟩ : ∃ w, w = 0xDC00 + (c.toNat - 0x10000) % 0x400 := ⟨_, rfl⟩
      have hqRange : 0xD800 ≤ q ∧ q ≤ 0xDBFF := by omega
      have hwRange : 0xDC00 ≤ w ∧ w ≤ 0xDFFF := by omega
      have hesc : escapeChars (c :: cs) ++ '"' :: rest =
          '\\' :: 'u' :: (hex4Digits q ++
            ('\\' :: 'u' :: (hex4Digits w ++ (escapeChars cs ++ '"' :: rest)))) := by
        simp [escapeChars, escapeChar, h1, h2, h3, h4, h5, h6, h7, h8, h9,
          uEscape, hq, hw]
      have harith : 0x10000 + (q - 0xD800) * 0x400 + (w - 0xDC00) = c.toNat := by
        omega
      rw [hesc]
      simp only [parseStringBody, readHex4_hex4Digits q (by omega),
        readHex4_hex4Digits w (by omega), if_pos hqRange, if_pos hwRange,
        hih, harith, Char.ofNat_toNat]
      rfl

theorem escapeChar_length_pos (c : Char) : 0 < (escapeChar c).length := by
  unfold escapeChar
  iterate 8 (split <;> try simp)
  split <;> simp [uEscape, hex4Digits]

theorem escapeChars_length_ge (cs : List Char) :
    cs.length ≤ (escapeChars cs).length := by
  induction cs with
  | nil => simp [escapeChars]
  | cons c cs ih =>
    have hc := escapeChar_length_pos c
    have hstep : escapeChars (c :: cs) = escapeChar c ++ escapeChars cs := by
      simp [escapeChars]
    rw [hstep, List.length_append, List.length_cons]
    omega

theorem parseJString_encode (s : String) (rest : List Char) :
    parseJString (escapeChars s.data ++ '"' :: rest) = .ok (s, rest) := by
  unfold parseJString
  have hge := escapeChars_length_ge s.data
  have hlen : s.data.length < (escapeChars s.data ++ '"' :: rest).length + 1 := by
    rw [List.length_append, List.length_cons]
    omega
  rw [parseStringBody_escape s.data _ rest hlen]

theorem ne_of_toNat_ne (c d : Char) (h : c.toNat ≠ d.toNat) : c ≠ d :=
  fun hc => h (congrArg Char.toNat hc)

/-- A decimal digit character is none of the parser's structural
characters and is not whitespace. -/
theorem isDigit_facts (c : Char) (h : c.isDigit = true) :
    isJsonWs c = false ∧ c ≠ 'n' ∧ c ≠ 't' ∧ c ≠ 'f' ∧ c ≠ '"' ∧ c ≠ '[' ∧
      c ≠ '\x7b' ∧ c ≠ ']' ∧ c ≠ '\x7d' ∧ c ≠ '-' := by
  have hr : 48 ≤ c.toNat ∧ c.toNat ≤ 57 := by
    simp [Char.isDigit] at h
    exact h
  have h1 : c ≠ ' ' := ne_of_toNat_ne c ' ' (by simp; omega)
  have h2 : c ≠ '\t' := ne_of_toNat_ne c '\t' (by simp; omega)
  have h3 : c ≠ '\n' := ne_of_toNat_ne c '\n' (by simp; omega)
  have h4 : c ≠ '\r' := ne_of_toNat_ne c '\r' (by simp; omega)
  refine ⟨by simp [isJsonWs, h1, h2, h3, h4], ?_, ?_, ?_, ?_, ?_, ?_, ?_, ?_, ?_⟩
  · exact ne_of_toNat_ne c 'n' (by simp; omega)
  · exact ne_of_toNat_ne c 't' (by simp; omega)
  · exact ne_of_toNat_ne c 'f' (by simp; omega)
  · exact ne_of_toNat_ne c '"' (by simp; omega)
  · exact ne_of_toNat_ne c '[' (by simp; omega)
  · exact ne_of_toNat_ne c '\x7b' (by simp; omega)
  · exact ne_of_toNat_ne c ']' (by simp; omega)
  · exact ne_of_toNat_ne c '\x7d' (by simp; omega)
  · exact ne_of_toNat_ne c '-' (by simp; omega)

/-- The first character a value's dump emits: never whitespace and never
a closing bracket, so the parser's dispatch sees the value itself. -/
theorem dumpVal_head (v : Json) (lvl : Nat) :
    ∃ c cs, (dumpVal v lvl).data = c :: cs ∧ isJsonWs c = false ∧
      c ≠ ']' ∧ c ≠ '\x7d' := by
  cases v with
  | null => refine ⟨'n', _, rfl, ?_, ?_, ?_⟩ <;> decide
  | bool b =>
    cases b with
    | true => refine ⟨'t', _, rfl, ?_, ?_, ?_⟩ <;> decide
    | false => refine ⟨'f', _, rfl, ?_, ?_, ?_⟩ <;> decide
  | num n =>
    by_cases hn : n < 0
    · refine ⟨'-', (natRepr n.natAbs).data, ?_, by decide, by decide, by decide⟩
      simp [dumpVal, intRepr, hn, String.data_append]
    · obtain ⟨hne, hdig, -, -⟩ := natReprAux_spec (n.toNat + 1) n.toNat (by omega)
      cases haux : natReprAux (n.toNat + 1) n.toNat with
      | nil => exact absurd haux hne
      | cons d ds =>
        have hdd : d.isDigit = true :=
          hdig d (by rw [haux]; exact List.mem_cons_self _ _)
        obtain ⟨hws, -, -, -, -, -, -, hbr, hbc, -⟩ := isDigit_facts d hdd
        refine ⟨d, ds, ?_, hws, hbr, hbc⟩
        simp [dumpVal, intRepr, hn, natRepr, haux]
  | str s =>
    refine ⟨'"', escapeChars s.data ++ ['"'], ?_, by decide, by decide, by decide⟩
    simp [dumpVal, encodeStringPy, String.data_append]
  | arr xs =>
    cases xs with
    | nil => exact ⟨'[', _, rfl, by decide, by decide, by decide⟩
    | cons x xs =>
      refine ⟨'[', '\n' ::
        ((dumpArrItems (x :: xs) (lvl + 1) ++ "\n" ++ ind lvl ++ "]").data), ?_,
        by decide, by decide, by decide⟩
      simp [dumpVal, String.data_append]
  | obj fs =>
    cases fs with
    | nil => exact ⟨'\x7b', _, rfl, by decide, by decide, by decide⟩
    | cons f fs =>
      refine ⟨'\x7b', '\n' ::
        ((dumpObjItems (f :: fs) (lvl + 1) ++ "\n" ++ ind lvl ++ "\x7d").data), ?_,
        by decide, by decide, by decide⟩
      simp [dumpVal, String.data_append]

theorem dumpVal_length_pos (v : Json) (lvl : Nat) :
    1 ≤ (dumpVal v lvl).length := by
  obtain ⟨c, cs, hdata, -, -, -⟩ := dumpVal_head v lvl
  have hl : (dumpVal v lvl).length = (dumpVal v lvl).data.length := rfl
  rw [hl, hdata]
  simp

mutual

theorem jsize_le_dumpVal (v : Json) (lvl : Nat) :
    jsize v ≤ (dumpVal v lvl).length := by
  cases v with
  | null => exact dumpVal_length_pos _ _
  | bool b => exact dumpVal_length_pos _ _
  | num n => exact dumpVal_length_pos _ _
  | str s => exact dumpVal_length_pos _ _
  | arr xs =>
    cases xs with
    | nil => exact Nat.le_refl 2
    | cons x xs =>
      have hItems := jsizeList_le_dumpArrItems x xs (lvl + 1)
      have e1 : ("[\n" : String).length = 2 := rfl
      have e2 : ("\n" : String).length = 1 := rfl
      have e3 : ("]" : String).length = 1 := rfl
      simp only [dumpVal, jsize, String.length_append, e1, e2, e3]
      omega
  | obj fs =>
    cases fs with
    | nil => exact Nat.le_refl 2
    | cons f fs =>
      obtain ⟨fk, fv⟩ := f
      have hItems := jsizeFields_le_dumpObjItems fk fv fs (lvl + 1)
      have e1 : ("\x7b\n" : String).length = 2 := rfl
      have e2 : ("\n" : String).length = 1 := rfl
      have e3 : ("\x7d" : String).length = 1 := rfl
      simp only [dumpVal, jsize, String.length_append, e1, e2, e3]
      omega
termination_by sizeOf v

theorem jsizeList_le_dumpArrItems (x : Json) (xs : List Json) (lvl : Nat) :
    jsizeList (x :: xs) ≤ (dumpArrItems (x :: xs) lvl).length := by
  cases xs with
  | nil =>
    have h := jsize_le_dumpVal x lvl
    simp only [dumpArrItems, jsizeList, String.length_append]
    omega
  | cons y ys =>
    have h1 := jsize_le_dumpVal x lvl
    have h2 := jsizeList_le_dumpArrItems y ys lvl
    have e : (",\n" : String).length = 2 := rfl
    simp only [jsizeList] at h2 ⊢
    simp only [dumpArrItems, String.length_append, e]
    omega
termination_by sizeOf x + sizeOf xs

theorem jsizeFields_le_dumpObjItems (k : String) (v : Json)
    (fs : List (String × Json)) (lvl : Nat) :
    jsizeFields ((k, v) :: fs) ≤ (dumpObjItems ((k, v) :: fs) lvl).length := by
  cases fs with
  | nil =>
    have h := jsize_le_dumpVal v lvl
    simp only [dumpObjItems, jsizeFields, String.length_append]
    omega
  | cons g gs =>
    obtain ⟨gk, gv⟩ := g
    have h1 := jsize_le_dumpVal v lvl
    have h2 := jsizeFields_le_dumpObjItems gk gv gs lvl
    have e : (",\n" : String).length = 2 := rfl
    simp only [jsizeFields] at h2 ⊢
    simp only [dumpObjItems, String.length_append, e]
    omega
termination_by sizeOf v + sizeOf fs

end

theorem numSafe_arrTail (xs : List Json) (lvl : Nat) (rest : List Char) :
    NumSafe (arrTail xs lvl rest) := by
  cases xs with
  | nil => exact ⟨by decide, by decide, by decide, by decide⟩
  | cons y ys => exact ⟨by decide, by decide, by decide, by decide⟩

theorem numSafe_objTail (fs : List (String × Json)) (lvl : Nat) (rest : List Char) :
    NumSafe (objTail fs lvl rest) := by
  cases fs with
  | nil => exact ⟨by decide, by decide, by decide, by decide⟩
  | cons g gs => exact ⟨by decide, by decide, by decide, by decide⟩

theorem dumpArrItems_stream (x : Json) (xs : List Json) (lvl : Nat)
    (rest : List Char) :
    (dumpArrItems (x :: xs) (lvl + 1)).data ++
      '\n' :: ((ind lvl).data ++ ']' :: rest) =
    (ind (lvl + 1)).data ++ ((dumpVal x (lvl + 1)).data ++ arrTail xs lvl rest) := by
  induction xs generalizing x with
  | nil => simp [dumpArrItems, arrTail, String.data_append]
  | cons y ys ih =>
    have hc : (",\n" : String).data = [',', '\n'] := rfl
    simp only [dumpArrItems, arrTail, String.data_append, hc, List.append_assoc,
      List.cons_append, List.nil_append]
    rw [ih y]

theorem dumpObjItems_stream (f : String × Json) (fs : List (String × Json))
    (lvl : Nat) (rest : List Char) :
    (dumpObjItems (f :: fs) (lvl + 1)).data ++
      '\n' :: ((ind lvl).data ++ '\x7d' :: rest) =
    (ind (lvl + 1)).data ++ ((encodeStringPy f.1).data ++ ':' :: ' ' ::
      ((dumpVal f.2 (lvl + 1)).data ++ objTail fs lvl rest)) := by
  induction fs generalizing f with
  | nil =>
    have hc : (": " : String).data = [':', ' '] := rfl
    simp [dumpObjItems, objTail, String.data_append, hc]
  | cons g gs ih =>
    have hc : (",\n" : String).data = [',', '\n'] := rfl
    have hc2 : (": " : String).data = [':', ' '] := rfl
    simp only [dumpObjItems, objTail, String.data_append, hc, hc2,
      List.append_assoc, List.cons_append, List.nil_append]
    rw [ih g]

theorem jsize_pos (v : Json) : 1 ≤ jsize v := by
  cases v <;> simp [jsize] <;> omega

theorem encodeStringPy_data (s : String) :
    (encodeStringPy s).data = '"' :: (escapeChars s.data ++ ['"']) := by
  simp [encodeStringPy, String.data_append]

theorem skipWs_dump (L : Nat) (x : Json) (t : List Char) :
    skipWs ((dumpVal x L).data ++ t) = (dumpVal x L).data ++ t := by
  obtain ⟨c, cs, hd, hws, -, -⟩ := dumpVal_head x L
  rw [hd, List.cons_append, skipWs_of_head _ _ hws]

theorem skipWs_line (L L2 : Nat) (x : Json) (t : List Char) :
    skipWs ('\n' :: ((ind L2).data ++ ((dumpVal x L).data ++ t))) =
      (dumpVal x L).data ++ t := by
  rw [skipWs_ws _ _ (by decide), skipWs_ind, skipWs_dump]

theorem skipWs_line_key (L2 : Nat) (k : String) (t : List Char) :
    skipWs ('\n' :: ((ind L2).data ++ ((encodeStringPy k).data ++ t))) =
      (encodeStringPy k).data ++ t := by
  rw [skipWs_ws _ _ (by decide), skipWs_ind, encodeStringPy_data,
    List.cons_append, skipWs_of_head _ _ (by decide)]

theorem updOrApp_of_forall_ne (acc : List (String × Json)) (k : String) (v : Json)
    (h : ∀ g ∈ acc, g.1 ≠ k) : updOrApp acc k v = acc ++ [(k, v)] := by
  induction acc with
  | nil => rfl
  | cons a acc ih =>
    have ha := h a (List.mem_cons_self _ _)
    simp [updOrApp, ha, ih (fun g hg => h g (List.mem_cons_of_mem _ hg))]

theorem keysNodup_cons (f : String × Json) (fs : List (String × Json)) :
    keysNodup (f :: fs) = true ↔ (∀ g ∈ fs, g.1 ≠ f.1) ∧ keysNodup fs = true := by
  simp [keysNodup]

theorem buildDict_self_aux (fs : List (String × Json)) :
    ∀ acc : List (String × Json), (∀ g ∈ fs, ∀ a ∈ acc, a.1 ≠ g.1) →
    keysNodup fs = true →
    fs.foldl (fun acc kv => updOrApp acc kv.1 kv.2) acc = acc ++ fs := by
  induction fs with
  | nil => intro acc _ _; simp
  | cons f fs ih =>
    intro acc hdisj h
    obtain ⟨hhead, htail⟩ := (keysNodup_cons f fs).mp h
    rw [List.foldl_cons,
      updOrApp_of_forall_ne acc f.1 f.2
        (fun g hg => hdisj f (List.mem_cons_self _ _) g hg),
      ih (acc ++ [(f.1, f.2)]) ?_ htail]
    · simp
    · intro g hg a ha
      rcases List.mem_append.mp ha with ha | ha
      · exact hdisj g (List.mem_cons_of_mem _ hg) a ha
      · simp at ha
        rw [ha]
        exact (hhead g hg).symm
    -- (done)

theorem buildDict_self (fs : List (String × Json)) (h : keysNodup fs = true) :
    buildDict fs = fs := by
  unfold buildDict
  rw [buildDict_self_aux fs [] (by intro g _ a ha; exact absurd ha (List.not_mem_nil a)) h]
  simp

/-- The printer/parser round-trip, by induction on parser fuel: with
enough fuel, `parseVal` re-parses the indent-2 dump of any value with
duplicate-free object keys, and the item parsers re-parse the dumped item
streams. -/
theorem parse_dump : ∀ fuel : Nat,
    (∀ v lvl cs rest, jsize v ≤ fuel → jUniq v = true → NumSafe rest →
      skipWs cs = (dumpVal v lvl).data ++ rest →
      parseVal fuel cs = .ok (v, rest)) ∧
    (∀ x xs lvl cs rest, jsize x + jsizeList xs + 1 ≤ fuel →
      jUniqList (x :: xs) = true →
      skipWs cs = (dumpVal x (lvl + 1)).data ++ arrTail xs lvl rest →
      parseArrItems fuel cs = .ok (x :: xs, rest)) ∧
    (∀ k v fs lvl rest, jsize v + jsizeFields fs + 1 ≤ fuel →
      jUniqFields ((k, v) :: fs) = true →
      parseObjItems fuel ((encodeStringPy k).data ++ ':' :: ' ' ::
        ((dumpVal v (lvl + 1)).data ++ objTail fs lvl rest)) =
        .ok ((k, v) :: fs, rest)) := by
  intro fuel
  induction fuel with
  | zero =>
    refine ⟨?_, ?_, ?_⟩
    · intro v lvl cs rest hsize _ _ _
      have := jsize_pos v
      omega
    · intro x xs lvl cs rest hsize _ _
      omega
    · intro k v fs lvl rest hsize _
      omega
  | succ g ih =>
    obtain ⟨ihVal, ihArr, ihObj⟩ := ih
    refine ⟨?_, ?_, ?_⟩
    · intro v lvl cs rest hsize huniq hnum hskip
      cases v with
      | null =>
        have hd : (dumpVal .null lvl).data ++ rest =
            'n' :: 'u' :: 'l' :: 'l' :: rest := rfl
        rw [hd] at hskip
        simp [parseVal, hskip]
      | bool b =>
        cases b with
        | true =>
          have hd : (dumpVal (.bool true) lvl).data ++ rest =
              't' :: 'r' :: 'u' :: 'e' :: rest := rfl
          rw [hd] at hskip
          simp [parseVal, hskip]
        | false =>
          have hd : (dumpVal (.bool false) lvl).data ++ rest =
              'f' :: 'a' :: 'l' :: 's' :: 'e' :: rest := rfl
          rw [hd] at hskip
          simp [parseVal, hskip]
      | num n =>
        by_cases hn : n < 0
        · have hd : (dumpVal (.num n) lvl).data ++ rest =
              '-' :: ((natRepr n.natAbs).data ++ rest) := by
            simp [dumpVal, intRepr, hn, String.data_append]
          rw [hd] at hskip
          have hpn := parseNum_intRepr n rest hnum
          have hd2 : (intRepr n).data ++ rest =
              '-' :: ((natRepr n.natAbs).data ++ rest) := by
            simp [intRepr, hn, String.data_append]
          rw [hd2] at hpn
          simp [parseVal, hskip, hpn]
        · obtain ⟨hne, hdig, -, -⟩ := natReprAux_spec (n.toNat + 1) n.toNat (by omega)
          cases haux : natReprAux (n.toNat + 1) n.toNat with
          | nil => exact absurd haux hne
          | cons d ds =>
            have hdd : d.isDigit = true :=
              hdig d (by rw [haux]; exact List.mem_cons_self _ _)
            obtain ⟨-, hn1, hn2, hn3, hn4, hn5, hn6, -, -, -⟩ := isDigit_facts d hdd
            have hd : (dumpVal (.num n) lvl).data ++ rest = d :: (ds ++ rest) := by
              simp [dumpVal, intRepr, hn, natRepr, haux]
            rw [hd] at hskip
            have hpn := parseNum_intRepr n rest hnum
            have hd2 : (intRepr n).data ++ rest = d :: (ds ++ rest) := by
              simp [intRepr, hn, natRepr, haux]
            rw [hd2] at hpn
            simp only [parseVal, hskip, if_neg hn1, if_neg hn2, if_neg hn3,
              if_neg hn4, if_neg hn5, if_neg hn6, if_pos (Or.inr hdd), hpn]
      | str s =>
        have hd : (dumpVal (.str s) lvl).data ++ rest =
            '"' :: (escapeChars s.data ++ '"' :: rest) := by
          simp [dumpVal, encodeStringPy, String.data_append]
        rw [hd] at hskip
        simp [parseVal, hskip, parseJString_encode s rest]
      | arr xs =>
        cases xs with
        | nil =>
          have hd : (dumpVal (.arr []) lvl).data ++ rest = '[' :: ']' :: rest := rfl
          rw [hd] at hskip
          simp [parseVal, hskip, skipWs_of_head ']' rest (by decide)]
        | cons x xs =>
          have h1 : (dumpVal (.arr (x :: xs)) lvl).data ++ rest =
              '[' :: '\n' :: ((dumpArrItems (x :: xs) (lvl + 1)).data ++
                '\n' :: ((ind lvl).data ++ ']' :: rest)) := by
            simp [dumpVal, String.data_append]
          have hd : (dumpVal (.arr (x :: xs)) lvl).data ++ rest =
              '[' :: '\n' :: ((ind (lvl + 1)).data ++
                ((dumpVal x (lvl + 1)).data ++ arrTail xs lvl rest)) := by
            rw [h1, dumpArrItems_stream]
          rw [hd] at hskip
          obtain ⟨c0, cs0, hd0, hws0, hbr0, hbc0⟩ := dumpVal_head x (lvl + 1)
          have hsk2 := skipWs_line (lvl + 1) (lvl + 1) x (arrTail xs lvl rest)
          simp only [jsize, jsizeList] at hsize
          have harr := ihArr x xs lvl
            ((dumpVal x (lvl + 1)).data ++ arrTail xs lvl rest) rest
            (by omega)
            (by simpa [jUniq] using huniq)
            (skipWs_dump _ _ _)
          simp [parseVal, hskip, hsk2]
          split
          · rename_i r heq
            rw [hd0, List.cons_append, List.cons.injEq] at heq
            exact absurd heq.1 hbr0
          · rw [harr]
      | obj fields =>
        cases fields with
        | nil =>
          have hd : (dumpVal (.obj []) lvl).data ++ rest =
              '\x7b' :: '\x7d' :: rest := rfl
          rw [hd] at hskip
          simp [parseVal, hskip, skipWs_of_head '\x7d' rest (by decide)]
        | cons f fs =>
          obtain ⟨k0, v0⟩ := f
          have h1 : (dumpVal (.obj ((k0, v0) :: fs)) lvl).data ++ rest =
              '\x7b' :: '\n' :: ((dumpObjItems ((k0, v0) :: fs) (lvl + 1)).data ++
                '\n' :: ((ind lvl).data ++ '\x7d' :: rest)) := by
            simp [dumpVal, String.data_append]
          have hd : (dumpVal (.obj ((k0, v0) :: fs)) lvl).data ++ rest =
              '\x7b' :: '\n' :: ((ind (lvl + 1)).data ++
                ((encodeStringPy k0).data ++ ':' :: ' ' ::
                  ((dumpVal v0 (lvl + 1)).data ++ objTail fs lvl rest))) := by
            rw [h1, dumpObjItems_stream]
          rw [hd] at hskip
          have hsk2 := skipWs_line_key (lvl + 1) k0
            (':' :: ' ' :: ((dumpVal v0 (lvl + 1)).data ++ objTail fs lvl rest))
          simp only [jsize, jsizeFields] at hsize
          have hnodup : keysNodup ((k0, v0) :: fs) = true := by
            simp only [jUniq, Bool.and_eq_true] at huniq
            exact huniq.1
          have hfields : jUniqFields ((k0, v0) :: fs) = true := by
            simp only [jUniq, Bool.and_eq_true] at huniq
            exact huniq.2
          have hobj := ihObj k0 v0 fs lvl rest (by omega) hfields
          simp [parseVal, hskip, hsk2]
          split
          · rename_i r heq
            rw [encodeStringPy_data, List.cons_append, List.cons.injEq] at heq
            exact absurd heq.1 (by decide)
          · rw [hobj]
            simp [buildDict_self _ hnodup]
    · intro x xs lvl cs rest hsize huniq hskip
      have hxu : jUniq x = true ∧ jUniqList xs = true := by
        simpa [jUniqList] using huniq
      have hval := ihVal x (lvl + 1) cs (arrTail xs lvl rest)
        (by omega) hxu.1 (numSafe_arrTail xs lvl rest) hskip
      simp only [parseArrItems, hval]
      cases xs with
      | nil =>
        have hsk : skipWs (arrTail [] lvl rest) = ']' :: rest := by
          simp only [arrTail]
          rw [skipWs_ws _ _ (by decide), skipWs_ind,
            skipWs_of_head _ _ (by decide)]
        simp [hsk]
      | cons y ys =>
        have hsk : skipWs (arrTail (y :: ys) lvl rest) =
            ',' :: ('\n' :: ((ind (lvl + 1)).data ++
              ((dumpVal y (lvl + 1)).data ++ arrTail ys lvl rest))) := by
          simp only [arrTail]
          exact skipWs_of_head _ _ (by decide)
        have hx1 := jsize_pos x
        simp only [jsizeList] at hsize
        have harr := ihArr y ys lvl
          ('\n' :: ((ind (lvl + 1)).data ++
            ((dumpVal y (lvl + 1)).data ++ arrTail ys lvl rest))) rest
          (by omega) hxu.2 (skipWs_line _ _ _ _)
        simp [hsk, harr]
    · intro k v fs lvl rest hsize huniq
      have hvu : jUniq v = true ∧ jUniqFields fs = true := by
        simpa [jUniqFields] using huniq
      rw [encodeStringPy_data, List.cons_append]
      have hval := ihVal v (lvl + 1)
        (' ' :: ((dumpVal v (lvl + 1)).data ++ objTail fs lvl rest))
        (objTail fs lvl rest)
        (by omega) hvu.1 (numSafe_objTail fs lvl rest)
        (by rw [skipWs_ws _ _ (by decide), skipWs_dump])
      simp [parseObjItems, List.append_assoc, List.singleton_append,
        parseJString_encode k
          (':' :: ' ' :: ((dumpVal v (lvl + 1)).data ++ objTail fs lvl rest)),
        skipWs_of_head ':' _ (by decide), hval]
      cases fs with
      | nil =>
        have hsk : skipWs (objTail [] lvl rest) = '\x7d' :: rest := by
          simp only [objTail]
          rw [skipWs_ws _ _ (by decide), skipWs_ind,
            skipWs_of_head _ _ (by decide)]
        simp [hsk]
      | cons f2 gs =>
        obtain ⟨k2, v2⟩ := f2
        have hsk : skipWs (objTail ((k2, v2) :: gs) lvl rest) =
            ',' :: ('\n' :: ((ind (lvl + 1)).data ++
              ((encodeStringPy k2).data ++ ':' :: ' ' ::
                ((dumpVal v2 (lvl + 1)).data ++ objTail gs lvl rest)))) := by
          simp only [objTail]
          exact skipWs_of_head _ _ (by decide)
        have hv1 := jsize_pos v
        simp only [jsizeFields] at hsize
        have hobj := ihObj k2 v2 gs lvl rest (by omega) hvu.2
        have hsk4 := skipWs_line_key (lvl + 1) k2
          (':' :: ' ' :: ((dumpVal v2 (lvl + 1)).data ++ objTail gs lvl rest))
        simp only [hsk, hsk4]
        rw [encodeStringPy_data, List.cons_append] at hobj ⊢
        simp only [List.append_assoc, List.singleton_append] at hobj
        simp [hobj]

theorem any_key_updOrApp (acc : List (String × Json)) (k x : String) (v : Json) :
    ((updOrApp acc k v).any (fun g => g.1 = x)) =
      (acc.any (fun g => g.1 = x) || decide (k = x)) := by
  induction acc with
  | nil => simp [updOrApp]
  | cons a acc ih =>
    obtain ⟨a1, a2⟩ := a
    by_cases hak : a1 = k
    · subst hak
      simp only [updOrApp, if_pos rfl]
      cases hd : decide (a1 = x) with
      | true => simp [List.any_cons, hd]
      | false => simp [List.any_cons, hd]
    · simp [updOrApp, hak, List.any_cons, ih, Bool.or_assoc]

theorem keysNodup_updOrApp (acc : List (String × Json)) (k : String) (v : Json)
    (h : keysNodup acc = true) : keysNodup (updOrApp acc k v) = true := by
  induction acc with
  | nil => simp [updOrApp, keysNodup]
  | cons a acc ih =>
    simp only [keysNodup, Bool.and_eq_true, Bool.not_eq_true'] at h
    by_cases hak : a.1 = k
    · simp only [updOrApp, if_pos hak, keysNodup, Bool.and_eq_true,
        Bool.not_eq_true']
      exact ⟨h.1, h.2⟩
    · simp only [updOrApp, if_neg hak, keysNodup, Bool.and_eq_true,
        Bool.not_eq_true', any_key_updOrApp, ih h.2, and_true]
      rw [h.1]
      simp
      intro hkx
      exact absurd hkx.symm hak

theorem jUniqFields_updOrApp (acc : List (String × Json)) (k : String) (v : Json)
    (h1 : jUniqFields acc = true) (h2 : jUniq v = true) :
    jUniqFields (updOrApp acc k v) = true := by
  induction acc with
  | nil => simp [updOrApp, jUniqFields, h2]
  | cons a acc ih =>
    simp only [jUniqFields, Bool.and_eq_true] at h1
    by_cases hak : a.1 = k
    · simp only [updOrApp, if_pos hak, jUniqFields, Bool.and_eq_true]
      exact ⟨h2, h1.2⟩
    · simp only [updOrApp, if_neg hak, jUniqFields, Bool.and_eq_true]
      exact ⟨h1.1, ih h1.2⟩

theorem buildDict_aux_uniq : ∀ (ps acc : List (String × Json)),
    jUniqFields ps = true → keysNodup acc = true → jUniqFields acc = true →
    keysNodup (ps.foldl (fun acc kv => updOrApp acc kv.1 kv.2) acc) = true ∧
    jUniqFields (ps.foldl (fun acc kv => updOrApp acc kv.1 kv.2) acc) = true := by
  intro ps
  induction ps with
  | nil =>
    intro acc _ h1 h2
    exact ⟨h1, h2⟩
  | cons p ps ih =>
    intro acc hps h1 h2
    simp only [jUniqFields, Bool.and_eq_true] at hps
    rw [List.foldl_cons]
    exact ih _ hps.2 (keysNodup_updOrApp acc p.1 p.2 h1)
      (jUniqFields_updOrApp acc p.1 p.2 h2 hps.1)

theorem buildDict_uniq (ps : List (String × Json)) (h : jUniqFields ps = true) :
    keysNodup (buildDict ps) = true ∧ jUniqFields (buildDict ps) = true :=
  buildDict_aux_uniq ps [] h rfl rfl

theorem parseNumCore_uniq (neg : Bool) (cs : List Char) (v : Json)
    (r : List Char) (h : parseNumCore neg cs = .ok (v, r)) : jUniq v = true := by
  simp only [parseNumCore] at h
  split at h
  · exact absurd h (by simp)
  · split at h
    · exact absurd h (by simp)
    · split at h
      · exact absurd h (by simp)
      · exact absurd h (by simp)
      · exact absurd h (by simp)
      · simp only [Except.ok.injEq, Prod.mk.injEq] at h
        rw [← h.1]
        rfl

theorem parseNum_uniq (cs : List Char) (v : Json) (r : List Char)
    (h : parseNum cs = .ok (v, r)) : jUniq v = true := by
  simp only [parseNum] at h
  split at h
  · exact parseNumCore_uniq true _ v r h
  · exact parseNumCore_uniq false _ v r h

/-- Values produced by the parser satisfy the dict invariant: every
object anywhere inside has duplicate-free keys. -/
theorem parse_uniq : ∀ fuel : Nat,
    (∀ cs v r, parseVal fuel cs = .ok (v, r) → jUniq v = true) ∧
    (∀ cs vs r, parseArrItems fuel cs = .ok (vs, r) → jUniqList vs = true) ∧
    (∀ cs ps r, parseObjItems fuel cs = .ok (ps, r) → jUniqFields ps = true) := by
  intro fuel
  induction fuel with
  | zero =>
    refine ⟨?_, ?_, ?_⟩
    · intro cs v r h
      exact absurd h (by simp [parseVal])
    · intro cs vs r h
      exact absurd h (by simp [parseArrItems])
    · intro cs ps r h
      exact absurd h (by simp [parseObjItems])
  | succ g ih =>
    obtain ⟨ihV, ihA, ihO⟩ := ih
    refine ⟨?_, ?_, ?_⟩
    · intro cs v r h
      simp only [parseVal] at h
      split at h
      · exact absurd h (by simp)
      split at h
      · -- 'n'
        split at h
        · simp only [Except.ok.injEq, Prod.mk.injEq] at h
          rw [← h.1]
          rfl
        · exact absurd h (by simp)
      split at h
      · -- 't'
        split at h
        · simp only [Except.ok.injEq, Prod.mk.injEq] at h
          rw [← h.1]
          rfl
        · exact absurd h (by simp)
      split at h
      · -- 'f'
        split at h
        · simp only [Except.ok.injEq, Prod.mk.injEq] at h
          rw [← h.1]
          rfl
        · exact absurd h (by simp)
      split at h
      · -- string
        split at h
        · simp only [Except.ok.injEq, Prod.mk.injEq] at h
          rw [← h.1]
          rfl
        · exact absurd h (by simp)
      split at h
      · -- array
        split at h
        · simp only [Except.ok.injEq, Prod.mk.injEq] at h
          rw [← h.1]
          rfl
        · split at h
          · rename_i vs r3 heq
            simp only [Except.ok.injEq, Prod.mk.injEq] at h
            rw [← h.1]
            simp only [jUniq]
            exact ihA _ _ _ heq
          · exact absurd h (by simp)
      split at h
      · -- object
        split at h
        · simp only [Except.ok.injEq, Prod.mk.injEq] at h
          rw [← h.1]
          rfl
        · split at h
          · rename_i ps r3 heq
            simp only [Except.ok.injEq, Prod.mk.injEq] at h
            rw [← h.1]
            have hps := ihO _ _ _ heq
            obtain ⟨h1, h2⟩ := buildDict_uniq ps hps
            simp [jUniq, h1, h2]
          · exact absurd h (by simp)
      split at h
      · exact parseNum_uniq _ _ _ h
      · exact absurd h (by simp)
    · intro cs vs r h
      simp only [parseArrItems] at h
      split at h
      · exact absurd h (by simp)
      · rename_i v r1 heqv
        split at h
        · split at h
          · rename_i vs2 r3 heq2
            simp only [Except.ok.injEq, Prod.mk.injEq] at h
            rw [← h.1]
            simp only [jUniqList, Bool.and_eq_true]
            exact ⟨ihV _ _ _ heqv, ihA _ _ _ heq2⟩
          · exact absurd h (by simp)
        · simp only [Except.ok.injEq, Prod.mk.injEq] at h
          rw [← h.1]
          simp only [jUniqList, Bool.and_eq_true]
          exact ⟨ihV _ _ _ heqv, trivial⟩
        · exact absurd h (by simp)
    · intro cs ps r h
      simp only [parseObjItems] at h
      split at h
      · rename_i r0
        split at h
        · exact absurd h (by simp)
        · rename_i k r1 heqk
          split at h
          · split at h
            · exact absurd h (by simp)
            · rename_i v0 r3 heqv
              split at h
              · split at h
                · split at h
                  · rename_i ps2 r6 heq2
                    simp only [Except.ok.injEq, Prod.mk.injEq] at h
                    rw [← h.1]
                    simp only [jUniqFields, Bool.and_eq_true]
                    exact ⟨ihV _ _ _ heqv, ihO _ _ _ heq2⟩
                  · exact absurd h (by simp)
                · exact absurd h (by simp)
              · simp only [Except.ok.injEq, Prod.mk.injEq] at h
                rw [← h.1]
                simp only [jUniqFields, Bool.and_eq_true]
                exact ⟨ihV _ _ _ heqv, trivial⟩
              · exact absurd h (by simp)
          · exact absurd h (by simp)
      · exact absurd h (by simp)

theorem jUniq_of_loads (s : String) (v : Json) (h : jsonLoads s = .ok v) :
    jUniq v = true := by
  unfold jsonLoads at h
  cases hp : parseVal (s.length + 1) s.data with
  | error e =>
    rw [hp] at h
    exact Except.noConfusion h
  | ok p =>
    obtain ⟨v0, r⟩ := p
    rw [hp] at h
    have h2 : (match skipWs r with
        | [] => Except.ok v0
        | _ => Except.error "Extra data") = Except.ok v := h
    split at h2
    · simp only [Except.ok.injEq] at h2
      rw [← h2]
      exact (parse_uniq _).1 _ _ _ hp
    · exact Except.noConfusion h2

/-- The round trip: re-parsing the indent-2 dump of any value with the
dict invariant recovers the value exactly. -/
theorem jsonLoads_dumps (v : Json) (h : jUniq v = true) :
    jsonLoads (jsonDumps v) = .ok v := by
  unfold jsonLoads
  have hle := jsize_le_dumpVal v 0
  have hfuel : jsize v ≤ (jsonDumps v).length + 1 := by
    have hl : (jsonDumps v).length = (dumpVal v 0).length := rfl
    omega
  have hskip : skipWs (jsonDumps v).data = (dumpVal v 0).data ++ [] := by
    rw [List.append_nil]
    have : (jsonDumps v).data = (dumpVal v 0).data ++ [] := by
      simp [jsonDumps]
    rw [this, skipWs_dump]
    simp
  have h1 := (parse_dump ((jsonDumps v).length + 1)).1 v 0 (jsonDumps v).data []
    hfuel h trivial hskip
  rw [h1]
  rfl

theorem jsonDumps_ne_empty (v : Json) : jsonDumps v ≠ "" := by
  obtain ⟨c, cs, hd, -, -, -⟩ := dumpVal_head v 0
  intro hcon
  have hdat : (dumpVal v 0).data = [] := by
    have hj : jsonDumps v = "" := hcon
    have : (jsonDumps v).data = [] := by
      rw [hj]
    exact this
  rw [hd] at hdat
  exact List.noConfusion hdat

/-- C5: for a JSON file the page body handed to the single attempted
create call is the indent-2 re-serialization of the parsed value, and it
round-trips — re-parsing the body recovers exactly the parsed content. -/
theorem from_file_json_roundtrip (remote : Remote) (fs : FS)
    (database_id file_path : String) (page_title : Option String)
    (fc : FileContent Json)
    (hsuffix : strLower (pathSuffix file_path) = ".json")
    (hread : read_json_file fs file_path = .ok fc) :
    (∃ pd, (create_notion_page_from_file (some remote) fs database_id file_path
        page_title).2 = [.pagesCreate pd] ∧
      pd.children = [paragraphBlock (jsonDumps fc.content)]) ∧
    jsonLoads (jsonDumps fc.content) = .ok fc.content := by
  have huq : jUniq fc.content = true := by
    unfold read_json_file at hread
    split at hread
    · exact Except.noConfusion hread
    · cases ho : openRead fs file_path with
      | error e =>
        rw [ho] at hread
        exact Except.noConfusion hread
      | ok content_str =>
        rw [ho] at hread
        have hread2 : (match jsonLoads content_str with
            | Except.error e =>
              (Except.error (PyError.valueError ("Invalid JSON format: " ++ e)) :
                Except PyError (FileContent Json))
            | Except.ok content =>
              Except.ok ⟨pathName file_path, "json", content,
                content_str.length, "utf-8"⟩) = Except.ok fc := hread
        cases hj : jsonLoads content_str with
        | error e =>
          rw [hj] at hread2
          exact Except.noConfusion hread2
        | ok content =>
          rw [hj] at hread2
          simp only [Except.ok.injEq] at hread2
          rw [← hread2]
          exact jUniq_of_loads content_str content hj
  refine ⟨?_, jsonLoads_dumps fc.content huq⟩
  refine ⟨⟨database_id,
    [("Name", titleProperty (pyOrStr page_title ("File: " ++ fc.filename)))],
    [paragraphBlock (jsonDumps fc.content)]⟩, ?_, rfl⟩
  have hne := jsonDumps_ne_empty fc.content
  have hrfp : readFileForPage fs file_path =
      .ok (⟨fc.filename, fc.content_type, fc.size⟩, jsonDumps fc.content) := by
    simp [readFileForPage, hsuffix, hread]
  simp only [create_notion_page_from_file, hrfp, create_notion_page,
    if_neg hne]
  split <;> rename_i heq <;> split at heq <;> simp_all

/-- C5 witness: the sample JSON file `[1, 2]` is read, serialized with
indent 2, re-parsed to the same value, and carried as the body of the one
attempted create call. -/
theorem from_file_json_roundtrip_witness :
    read_json_file witnessFS "data.json" =
      .ok ⟨"data.json", "json", .arr [.num 1, .num 2], 6, "utf-8"⟩ ∧
    jsonDumps (.arr [.num 1, .num 2]) = "[\n  1,\n  2\n]" ∧
    jsonLoads "[\n  1,\n  2\n]" = .ok (.arr [.num 1, .num 2]) ∧
    (create_notion_page_from_file (some okRemote) witnessFS "db" "data.json"
        none).2 =
      [.pagesCreate ⟨"db", [("Name", titleProperty "File: data.json")],
        [paragraphBlock "[\n  1,\n  2\n]"]⟩] := by
  have h := from_file_json_roundtrip okRemote witnessFS "db" "data.json" none
    ⟨"data.json", "json", .arr [.num 1, .num 2], 6, "utf-8"⟩ rfl rfl
  exact ⟨rfl, rfl, h.2, rfl⟩

end DemoMcp



